import Mathlib

/-!
Verification of the bitstream / parameter-set parsing engine of a
WebCodecs-style video library: the bit-level reader with Exp-Golomb
decoding (`BitstreamReader`), emulation-prevention removal, Annex-B
NAL-unit scanning, AVC/HEVC parameter-set decoding, the stream-level
aggregators and the codec-string parsers.

Machine integers are modelled as `Nat` with explicit reductions
(`% 2 ^ 32` for `uint32_t` wrap, `% 256` for `uint8_t` narrowing) at the
points where the C++ code performs a wrapping operation or a narrowing
assignment.  Fallible C++ functions (which throw) are modelled in
`Except Err`.
-/

/-- Error taxonomy of the parsing core: each constructor corresponds to one
family of exceptions thrown by the C++ code. -/
inductive Err where
  | outOfData
  | invalidWidth
  | codeTooLong
  | emptyData
  | tooShort
  | syntaxError
  deriving DecidableEq, Repr

/-- `BitstreamReader`: byte buffer plus byte/bit cursor, as in
`bitstream_reader.h`. -/
structure BitstreamReader where
  data : List Nat
  byte_position : Nat
  bit_position : Nat
  deriving DecidableEq, Repr

/-- Reader positioned at the start of a buffer. -/
def mkReader (d : List Nat) : BitstreamReader := ⟨d, 0, 0⟩

/-- `BitstreamReader::read_bit`: one bit, MSB first within each byte;
fails with `outOfData` at or past the end of the buffer. -/
def read_bit (r : BitstreamReader) : Except Err (Nat × BitstreamReader) :=
  if r.data.length ≤ r.byte_position then .error .outOfData
  else
    let bit := (r.data.getD r.byte_position 0 >>> (7 - r.bit_position)) &&& 1
    if r.bit_position + 1 = 8 then
      .ok (bit, ⟨r.data, r.byte_position + 1, 0⟩)
    else
      .ok (bit, ⟨r.data, r.byte_position, r.bit_position + 1⟩)

/-- Accumulator loop of `BitstreamReader::read_bits`:
`result = (result << 1) | read_bit()` (the bit is `≤ 1`, so the `or` is
an addition), run `n` times. -/
def readBitsAux : Nat → Nat → BitstreamReader → Except Err (Nat × BitstreamReader)
  | 0, acc, r => .ok (acc, r)
  | n + 1, acc, r => do
    let (b, r1) ← read_bit r
    readBitsAux n (acc * 2 + b) r1

/-- `BitstreamReader::read_bits(n)`: fails with `invalidWidth` for
`n > 32`, otherwise concatenates `n` bits MSB first. -/
def read_bits (n : Nat) (r : BitstreamReader) : Except Err (Nat × BitstreamReader) :=
  if 32 < n then .error .invalidWidth
  else readBitsAux n 0 r

/-- `BitstreamReader::skip_bits(n)`: `n` discarded `read_bit` calls. -/
def skip_bits : Nat → BitstreamReader → Except Err BitstreamReader
  | 0, r => .ok r
  | n + 1, r => do
    let (_, r1) ← read_bit r
    skip_bits n r1

/-- Leading-zero-count loop of `read_ue`.  `budget` is the number of
further zero bits allowed before the code throws `codeTooLong` (the C++
counter starts at 0 and throws when it exceeds 31, so the initial budget
is 31). -/
def ueCount : Nat → BitstreamReader → Except Err (Nat × BitstreamReader)
  | budget, r => do
    let (b, r1) ← read_bit r
    if b = 0 then
      match budget with
      | 0 => .error .codeTooLong
      | budget + 1 => do
        let (k, r2) ← ueCount budget r1
        .ok (k + 1, r2)
    else .ok (0, r1)

/-- `BitstreamReader::read_ue`: unsigned Exp-Golomb.  Counts leading
zeros `k` (at most 31), returns 0 for `k = 0`, else
`(1 <<< k) - 1 + value` where `value` is the next `k` bits. -/
def read_ue (r : BitstreamReader) : Except Err (Nat × BitstreamReader) := do
  let (k, r1) ← ueCount 31 r
  if k = 0 then .ok (0, r1)
  else do
    let (v, r2) ← read_bits k r1
    .ok ((1 <<< k) - 1 + v, r2)

/-- `BitstreamReader::read_se`: signed Exp-Golomb; odd codes map to
positive values, even codes to non-positive ones. -/
def read_se (r : BitstreamReader) : Except Err (Int × BitstreamReader) := do
  let (v, r1) ← read_ue r
  if v % 2 = 1 then .ok ((((v + 1) / 2 : Nat) : Int), r1)
  else .ok (-((v / 2 : Nat) : Int), r1)

/-- `BitstreamReader::remaining_bits`. -/
def remaining_bits (r : BitstreamReader) : Nat :=
  (r.data.length - r.byte_position) * 8 - r.bit_position

/-- `BitstreamReader::has_more_data`. -/
def has_more_data (r : BitstreamReader) : Bool :=
  decide (0 < remaining_bits r)

/-- `remove_emulation_prevention_bytes`: drops the `0x03` of every
`0x00 0x00 0x03` run and resumes scanning after it. -/
def remove_emulation_prevention_bytes : List Nat → List Nat
  | a :: b :: c :: rest =>
    if a = 0 ∧ b = 0 ∧ c = 3 then
      a :: b :: remove_emulation_prevention_bytes rest
    else
      a :: remove_emulation_prevention_bytes (b :: c :: rest)
  | l => l

/-- Absolute bit index of a reader cursor. -/
def bitIndex (r : BitstreamReader) : Nat := 8 * r.byte_position + r.bit_position

/-- Reader over `d` whose cursor sits at absolute bit index `n`. -/
def atBit (d : List Nat) (n : Nat) : BitstreamReader := ⟨d, n / 8, n % 8⟩

/-- Bit `n` of a byte buffer, MSB first within each byte. -/
def nthBit (d : List Nat) (n : Nat) : Nat :=
  (d.getD (n / 8) 0 >>> (7 - n % 8)) &&& 1

/-- Big-endian value of one byte given as eight bits. -/
def byteOfBits (b0 b1 b2 b3 b4 b5 b6 b7 : Nat) : Nat :=
  b0 * 128 + b1 * 64 + b2 * 32 + b3 * 16 + b4 * 8 + b5 * 4 + b6 * 2 + b7

/-- Pack an MSB-first bit list into bytes, zero-padding the final byte. -/
def packBits : List Nat → List Nat
  | [] => []
  | [b0] => [byteOfBits b0 0 0 0 0 0 0 0]
  | [b0, b1] => [byteOfBits b0 b1 0 0 0 0 0 0]
  | [b0, b1, b2] => [byteOfBits b0 b1 b2 0 0 0 0 0]
  | [b0, b1, b2, b3] => [byteOfBits b0 b1 b2 b3 0 0 0 0]
  | [b0, b1, b2, b3, b4] => [byteOfBits b0 b1 b2 b3 b4 0 0 0]
  | [b0, b1, b2, b3, b4, b5] => [byteOfBits b0 b1 b2 b3 b4 b5 0 0]
  | [b0, b1, b2, b3, b4, b5, b6] => [byteOfBits b0 b1 b2 b3 b4 b5 b6 0]
  | b0 :: b1 :: b2 :: b3 :: b4 :: b5 :: b6 :: b7 :: rest =>
    byteOfBits b0 b1 b2 b3 b4 b5 b6 b7 :: packBits rest

/-- `w`-bit MSB-first binary representation of `x`. -/
def natBits : Nat → Nat → List Nat
  | 0, _ => []
  | w + 1, x => natBits w (x >>> 1) ++ [x &&& 1]

/-- Standard unsigned Exp-Golomb encoding of `v`: `k` zero bits followed
by the `k + 1` bits of `v + 1`, where `k = Nat.log2 (v + 1)`. -/
def encodeUe (v : Nat) : List Nat :=
  List.replicate (Nat.log2 (v + 1)) 0 ++ natBits (Nat.log2 (v + 1) + 1) (v + 1)

/-- MSB-first value of the `n` bits of `d` starting at bit index `p`. -/
def bitsVal (d : List Nat) : Nat → Nat → Nat
  | _, 0 => 0
  | p, n + 1 => nthBit d p * 2 ^ n + bitsVal d (p + 1) n

/-- Inner scan of `find_annexb_nal_units`: advance `i` until a 3- or
4-byte start code begins at `i`; return the position just past it.  The
C++ `while` loop terminates because `i` increases; `fuel` (instantiated
with a value larger than the remaining distance) makes that explicit. -/
def scanStartCode (d : List Nat) (size : Nat) : Nat → Nat → Option Nat
  | 0, _ => none
  | fuel + 1, i =>
    if i + 2 < size then
      if d.getD i 0 = 0 ∧ d.getD (i + 1) 0 = 0 ∧ d.getD (i + 2) 0 = 1 then
        some (i + 3)
      else if d.getD i 0 = 0 ∧ d.getD (i + 1) 0 = 0 ∧ i + 3 < size ∧
          d.getD (i + 2) 0 = 0 ∧ d.getD (i + 3) 0 = 1 then
        some (i + 4)
      else scanStartCode d size fuel (i + 1)
    else none

/-- Second loop of `find_annexb_nal_units`: first position `j ≥ start`
at which a 3- or 4-byte start code begins, or `size`. -/
def findNalEnd (d : List Nat) (size : Nat) : Nat → Nat → Nat
  | 0, _ => size
  | fuel + 1, j =>
    if j + 2 < size then
      if d.getD j 0 = 0 ∧ d.getD (j + 1) 0 = 0 ∧
          (d.getD (j + 2) 0 = 1 ∨
            (j + 3 < size ∧ d.getD (j + 2) 0 = 0 ∧ d.getD (j + 3) 0 = 1)) then
        j
      else findNalEnd d size fuel (j + 1)
    else size

/-- Outer loop of `find_annexb_nal_units`: repeatedly locate a start
code, emit the span up to the next start code (or buffer end) when it is
non-empty, and continue from there. -/
def annexbLoop (d : List Nat) (size : Nat) : Nat → Nat → List (Nat × Nat)
  | 0, _ => []
  | fuel + 1, i =>
    if i < size then
      match scanStartCode d size (size + 1) i with
      | none => []
      | some start =>
        let e := findNalEnd d size (size + 1) start
        if start < e then (start, e - start) :: annexbLoop d size fuel e
        else annexbLoop d size fuel e
    else []

/-- `find_annexb_nal_units` (nal_utils.h): ordered `(offset, length)`
spans of the NAL units of an Annex-B buffer, start codes excluded. -/
def find_annexb_nal_units (d : List Nat) : List (Nat × Nat) :=
  if d.length < 4 then []
  else annexbLoop d d.length (d.length + 1) 0

/-- `data.begin() + offset .. data.begin() + offset + length`. -/
def sliceOf (d : List Nat) (offset length : Nat) : List Nat :=
  (d.drop offset).take length

/-- `AVCNalUnitHeader`. -/
structure AVCNalUnitHeader where
  nal_unit_type : Nat
  nal_ref_idc : Nat
  is_idr : Bool
  is_key_frame : Bool
  deriving DecidableEq, Repr

/-- `parse_avc_nal_unit_header`: AVC NAL headers are one byte;
`nal_ref_idc` is bits 6–5, `nal_unit_type` bits 4–0; type 5 is IDR and
types 5 and 7 (SPS) count as key frames. -/
def parse_avc_nal_unit_header (first_byte : Nat) : AVCNalUnitHeader :=
  let t := first_byte &&& 0x1F
  { nal_unit_type := t
    nal_ref_idc := (first_byte >>> 5) &&& 0x03
    is_idr := t = 5
    is_key_frame := t = 5 ∨ t = 7 }

/-- `AVCSpsInfo`.  `framerate` records the `(num_units_in_tick,
time_scale)` pair read from the VUI timing block when the C++ code would
set its floating-point `framerate`; the double division itself is not
modelled. -/
structure AVCSpsInfo where
  profile_idc : Nat
  level_idc : Nat
  constraint_set_flags : Nat
  width : Nat
  height : Nat
  bit_depth_luma : Nat
  bit_depth_chroma : Nat
  chroma_format_idc : Nat
  framerate : Option (Nat × Nat)
  sps_id : Nat
  deriving DecidableEq, Repr

/-- `AVCPpsInfo`. -/
structure AVCPpsInfo where
  pps_id : Nat
  sps_id : Nat
  entropy_coding_mode_flag : Bool
  deriving DecidableEq, Repr

/-- The `profile_idc` values that gate the extra chroma/bit-depth/scaling
fields in `parse_avc_sps`. -/
def isHighProfile (p : Nat) : Bool :=
  p = 100 ∨ p = 110 ∨ p = 122 ∨ p = 244 ∨ p = 44 ∨ p = 83 ∨ p = 86 ∨
    p = 118 ∨ p = 128 ∨ p = 138 ∨ p = 139 ∨ p = 134 ∨ p = 135

/-- Inner loop of one scaling list: `size` Exp-Golomb deltas consumed
with the standard scale-reconstruction recurrence (C++ `int` arithmetic,
`%` truncating toward zero). -/
def scalingListRun : Nat → Int → Int → BitstreamReader → Except Err BitstreamReader
  | 0, _, _, r => .ok r
  | j + 1, last_scale, next_scale, r => do
    if next_scale ≠ 0 then
      let (delta_scale, r1) ← read_se r
      let next1 := Int.tmod (last_scale + delta_scale + 256) 256
      let last1 := if next1 = 0 then last_scale else next1
      scalingListRun j last1 next1 r1
    else
      let last1 := if next_scale = 0 then last_scale else next_scale
      scalingListRun j last1 next_scale r

/-- Outer loop over the `count` scaling lists of an AVC SPS: each list
present per its flag, of 16 entries for the first six and 64 after. -/
def scalingMatrixRun (count : Nat) : Nat → BitstreamReader → Except Err BitstreamReader
  | 0, r => .ok r
  | i + 1, r => do
    let (flag, r1) ← read_bit r
    if flag = 1 then
      let size := if count - (i + 1) < 6 then 16 else 64
      let r2 ← scalingListRun size 8 8 r1
      scalingMatrixRun count i r2
    else scalingMatrixRun count i r1

/-- `num_ref_frames_in_pic_order_cnt_cycle`-many discarded `read_se`
calls (the `pic_order_cnt_type == 1` loop of `parse_avc_sps`). -/
def seRun : Nat → BitstreamReader → Except Err BitstreamReader
  | 0, r => .ok r
  | n + 1, r => do
    let (_, r1) ← read_se r
    seRun n r1

/-- Values extracted by the head of `parse_avc_sps`, up to and including
`gaps_in_frame_num_value_allowed_flag`. -/
structure AVCSpsHead where
  profile_idc : Nat
  constraint_set_flags : Nat
  level_idc : Nat
  sps_id : Nat
  chroma_format_idc : Nat
  bit_depth_luma : Nat
  bit_depth_chroma : Nat
  deriving DecidableEq, Repr

/-- First section of `parse_avc_sps` (avc_parser.cpp lines 40–127): NAL
header skip, profile/constraint/level, sps id, the High-profile extra
fields with the scaling matrix, frame-num/POC fields and
`gaps_in_frame_num_value_allowed_flag`.  `uint8_t` record fields narrow
`read_ue` results modulo 256. -/
def parse_avc_sps_head (r : BitstreamReader) : Except Err (AVCSpsHead × BitstreamReader) := do
  let r ← skip_bits 8 r
  let (profile_idc, r) ← read_bits 8 r
  let (constraint_set_flags, r) ← read_bits 8 r
  let (level_idc, r) ← read_bits 8 r
  let (sps_id_raw, r) ← read_ue r
  let step ← (do
    if isHighProfile profile_idc then
      let (chroma_raw, r) ← read_ue r
      let chroma := chroma_raw % 256
      let r ← if chroma = 3 then skip_bits 1 r else pure r
      let (bdl_raw, r) ← read_ue r
      let (bdc_raw, r) ← read_ue r
      let r ← skip_bits 1 r
      let (seq_scaling_matrix_present_flag, r) ← read_bit r
      let r ← if seq_scaling_matrix_present_flag = 1 then
          let count := if chroma ≠ 3 then 8 else 12
          scalingMatrixRun count count r
        else pure r
      pure ((chroma, (bdl_raw + 8) % 256, (bdc_raw + 8) % 256), r)
    else
      pure ((1, 8, 8), r) : Except Err ((Nat × Nat × Nat) × BitstreamReader))
  let ((chroma_format_idc, bit_depth_luma, bit_depth_chroma), r) := step
  let (_, r) ← read_ue r
  let (pic_order_cnt_type, r) ← read_ue r
  let r ← (do
    if pic_order_cnt_type = 0 then
      let (_, r) ← read_ue r
      pure r
    else if pic_order_cnt_type = 1 then
      let r ← skip_bits 1 r
      let (_, r) ← read_se r
      let (_, r) ← read_se r
      let (num_ref_frames_in_cycle, r) ← read_ue r
      seRun num_ref_frames_in_cycle r
    else pure r : Except Err BitstreamReader)
  let (_, r) ← read_ue r
  let r ← skip_bits 1 r
  .ok ({ profile_idc := profile_idc
         constraint_set_flags := constraint_set_flags
         level_idc := level_idc
         sps_id := sps_id_raw % 256
         chroma_format_idc := chroma_format_idc
         bit_depth_luma := bit_depth_luma
         bit_depth_chroma := bit_depth_chroma }, r)

/-- `x` reduced to `uint32_t` range. -/
def mod32 (x : Nat) : Nat := x % 2 ^ 32

/-- Wrapping `uint32_t` subtraction `a - b`. -/
def sub32 (a b : Nat) : Nat := (a + (2 ^ 32 - b % 2 ^ 32)) % 2 ^ 32

/-- Geometry fields of an AVC SPS (avc_parser.cpp lines 129–159). -/
structure AVCSpsGeom where
  pic_width_in_mbs_minus1 : Nat
  pic_height_in_map_units_minus1 : Nat
  frame_mbs_only_flag : Bool
  frame_cropping_flag : Bool
  crop_left : Nat
  crop_right : Nat
  crop_top : Nat
  crop_bottom : Nat
  deriving DecidableEq, Repr

/-- Geometry section of `parse_avc_sps`: picture size in macroblock
units, `frame_mbs_only_flag` (with the adaptive-field skip),
`direct_8x8_inference_flag` skip and the cropping flag with its four
offsets (zero when absent). -/
def parse_avc_sps_geometry (r : BitstreamReader) :
    Except Err (AVCSpsGeom × BitstreamReader) := do
  let (pic_width_in_mbs_minus1, r) ← read_ue r
  let (pic_height_in_map_units_minus1, r) ← read_ue r
  let (fm_bit, r) ← read_bit r
  let frame_mbs_only_flag := fm_bit = 1
  let r ← if ¬frame_mbs_only_flag then skip_bits 1 r else pure r
  let r ← skip_bits 1 r
  let (crop_bit, r) ← read_bit r
  let frame_cropping_flag := crop_bit = 1
  let (crops, r) ← (do
    if frame_cropping_flag then
      let (cl, r) ← read_ue r
      let (cr, r) ← read_ue r
      let (ct, r) ← read_ue r
      let (cb, r) ← read_ue r
      pure (((cl, cr, ct, cb) : Nat × Nat × Nat × Nat), r)
    else
      pure ((0, 0, 0, 0), r) : Except Err ((Nat × Nat × Nat × Nat) × BitstreamReader))
  .ok ({ pic_width_in_mbs_minus1 := pic_width_in_mbs_minus1
         pic_height_in_map_units_minus1 := pic_height_in_map_units_minus1
         frame_mbs_only_flag := decide frame_mbs_only_flag
         frame_cropping_flag := decide frame_cropping_flag
         crop_left := crops.1
         crop_right := crops.2.1
         crop_top := crops.2.2.1
         crop_bottom := crops.2.2.2 }, r)

/-- Resolution computation of `parse_avc_sps` (avc_parser.cpp lines
161–176), in wrapping `uint32_t` arithmetic. -/
def avc_dimensions (chroma_format_idc : Nat) (g : AVCSpsGeom) : Nat × Nat :=
  let sub_width_c := if chroma_format_idc = 3 then 1 else 2
  let sub_height_c := if chroma_format_idc = 1 then 2 else 1
  let sub_width_c := if chroma_format_idc = 0 then 1 else sub_width_c
  let sub_height_c := if chroma_format_idc = 0 then 1 else sub_height_c
  let crop_unit_x := sub_width_c
  let crop_unit_y := sub_height_c * (if g.frame_mbs_only_flag then 1 else 2)
  let width := sub32 (mod32 ((g.pic_width_in_mbs_minus1 + 1) * 16))
    (mod32 (mod32 (g.crop_left + g.crop_right) * crop_unit_x))
  let height := sub32
    (mod32 (mod32 ((g.pic_height_in_map_units_minus1 + 1) * 16) *
      (if g.frame_mbs_only_flag then 1 else 2)))
    (mod32 (mod32 (g.crop_top + g.crop_bottom) * crop_unit_y))
  (width, height)

/-- VUI section of `parse_avc_sps` (avc_parser.cpp lines 178–219);
returns the `(num_units_in_tick, time_scale)` pair exactly when the C++
code would set `framerate`. -/
def parse_avc_sps_vui (r : BitstreamReader) :
    Except Err (Option (Nat × Nat) × BitstreamReader) := do
  let (vui_flag, r) ← read_bit r
  if vui_flag = 1 ∧ has_more_data r then
    let (ar_flag, r) ← read_bit r
    let r ← if ar_flag = 1 then do
        let (aspect_ratio_idc, r) ← read_bits 8 r
        if aspect_ratio_idc = 255 then skip_bits 32 r else pure r
      else pure r
    let (ov_flag, r) ← read_bit r
    let r ← if ov_flag = 1 then skip_bits 1 r else pure r
    let (vs_flag, r) ← read_bit r
    let r ← if vs_flag = 1 then do
        let r ← skip_bits 4 r
        let (cd_flag, r) ← read_bit r
        if cd_flag = 1 then skip_bits 24 r else pure r
      else pure r
    let (cloc_flag, r) ← read_bit r
    let r ← if cloc_flag = 1 then do
        let (_, r) ← read_ue r
        let (_, r) ← read_ue r
        pure r
      else pure r
    if has_more_data r then
      let (t_flag, r) ← read_bit r
      if t_flag = 1 then
        let (num_units_in_tick, r) ← read_bits 32 r
        let (time_scale, r) ← read_bits 32 r
        if 0 < num_units_in_tick then .ok (some (num_units_in_tick, time_scale), r)
        else .ok (none, r)
      else .ok (none, r)
    else .ok (none, r)
  else .ok (none, r)

/-- `parse_avc_sps` (avc_parser.cpp lines 28–222): reject empty input,
strip emulation-prevention bytes, then decode head, geometry,
resolution and VUI. -/
def parse_avc_sps (data : List Nat) : Except Err AVCSpsInfo :=
  if data.length = 0 then .error .emptyData
  else do
    let rbsp := remove_emulation_prevention_bytes data
    let (hd, r1) ← parse_avc_sps_head (mkReader rbsp)
    let (g, r2) ← parse_avc_sps_geometry r1
    let wh := avc_dimensions hd.chroma_format_idc g
    let (fr, _) ← parse_avc_sps_vui r2
    .ok { profile_idc := hd.profile_idc
          level_idc := hd.level_idc
          constraint_set_flags := hd.constraint_set_flags
          width := wh.1
          height := wh.2
          bit_depth_luma := hd.bit_depth_luma
          bit_depth_chroma := hd.bit_depth_chroma
          chroma_format_idc := hd.chroma_format_idc
          framerate := fr
          sps_id := hd.sps_id }

/-- `parse_avc_pps` (avc_parser.cpp lines 225–250). -/
def parse_avc_pps (data : List Nat) : Except Err AVCPpsInfo :=
  if data.length = 0 then .error .emptyData
  else do
    let rbsp := remove_emulation_prevention_bytes data
    let r := mkReader rbsp
    let r ← skip_bits 8 r
    let (pps_id_raw, r) ← read_ue r
    let (sps_id_raw, r) ← read_ue r
    let (e_bit, _) ← read_bit r
    .ok { pps_id := pps_id_raw % 256
          sps_id := sps_id_raw % 256
          entropy_coding_mode_flag := e_bit = 1 }

/-- `AVCAnnexBInfo`. -/
structure AVCAnnexBInfo where
  sps : Option AVCSpsInfo
  pps : Option AVCPpsInfo
  nal_units : List AVCNalUnitHeader
  deriving DecidableEq, Repr

/-- Per-span body of the `parse_avc_annexb` loop: record the NAL header,
then attempt the SPS or PPS decoder for parameter-set NAL types, storing
the result on success and ignoring failures. -/
def avcAnnexbStep (d : List Nat) (info : AVCAnnexBInfo) (span : Nat × Nat) :
    AVCAnnexBInfo :=
  if span.2 = 0 then info
  else
    let header := parse_avc_nal_unit_header (d.getD span.1 0)
    let info := { info with nal_units := info.nal_units ++ [header] }
    if header.nal_unit_type = 7 then
      match parse_avc_sps (sliceOf d span.1 span.2) with
      | .ok s => { info with sps := some s }
      | .error _ => info
    else if header.nal_unit_type = 8 then
      match parse_avc_pps (sliceOf d span.1 span.2) with
      | .ok p => { info with pps := some p }
      | .error _ => info
    else info

/-- `parse_avc_annexb` (avc_parser.cpp lines 253–293). -/
def parse_avc_annexb (data : List Nat) : Except Err AVCAnnexBInfo :=
  if data.length = 0 then .error .emptyData
  else .ok ((find_annexb_nal_units data).foldl (avcAnnexbStep data)
    { sps := none, pps := none, nal_units := [] })

/-- `AVCDescriptionInfo`. -/
structure AVCDescriptionInfo where
  sps : Option AVCSpsInfo
  pps : Option AVCPpsInfo
  nal_units : List AVCNalUnitHeader
  length_size : Nat
  deriving DecidableEq, Repr

/-- SPS section of `parse_avc_description`: up to `count` big-endian
length-prefixed SPS entries from `offset`; a truncated or zero-length
entry stops the section, keeping results already gathered.  Returns the
updated record and the offset past the consumed entries. -/
def avcDescSpsLoop (d : List Nat) :
    Nat → Nat → AVCDescriptionInfo → AVCDescriptionInfo × Nat
  | 0, offset, info => (info, offset)
  | i + 1, offset, info =>
    if d.length < offset + 2 then (info, offset)
    else
      let len := d.getD offset 0 * 256 + d.getD (offset + 1) 0
      let offset := offset + 2
      if d.length < offset + len ∨ len = 0 then (info, offset)
      else
        let sps_data := sliceOf d offset len
        let header := parse_avc_nal_unit_header (sps_data.getD 0 0)
        let info := { info with nal_units := info.nal_units ++ [header] }
        let info := match parse_avc_sps sps_data with
          | .ok s => { info with sps := some s }
          | .error _ => info
        avcDescSpsLoop d i (offset + len) info

/-- PPS section of `parse_avc_description`, same shape as the SPS one. -/
def avcDescPpsLoop (d : List Nat) :
    Nat → Nat → AVCDescriptionInfo → AVCDescriptionInfo × Nat
  | 0, offset, info => (info, offset)
  | i + 1, offset, info =>
    if d.length < offset + 2 then (info, offset)
    else
      let len := d.getD offset 0 * 256 + d.getD (offset + 1) 0
      let offset := offset + 2
      if d.length < offset + len ∨ len = 0 then (info, offset)
      else
        let pps_data := sliceOf d offset len
        let header := parse_avc_nal_unit_header (pps_data.getD 0 0)
        let info := { info with nal_units := info.nal_units ++ [header] }
        let info := match parse_avc_pps pps_data with
          | .ok p => { info with pps := some p }
          | .error _ => info
        avcDescPpsLoop d i (offset + len) info

/-- `parse_avc_description` (avc_parser.cpp lines 296–374): avcC records
shorter than 7 bytes are rejected; `length_size` comes from byte 4,
the SPS count from the low 5 bits of byte 5, the PPS count from the byte
following the SPS entries. -/
def parse_avc_description (d : List Nat) : Except Err AVCDescriptionInfo :=
  if d.length < 7 then .error .tooShort
  else
    let info : AVCDescriptionInfo :=
      { sps := none, pps := none, nal_units := []
        length_size := (d.getD 4 0 &&& 0x03) + 1 }
    let num_sps := d.getD 5 0 &&& 0x1F
    let step := avcDescSpsLoop d num_sps 6 info
    if d.length ≤ step.2 then .ok step.1
    else
      let num_pps := d.getD step.2 0
      .ok (avcDescPpsLoop d num_pps (step.2 + 1) step.1).1

/-- `HEVCNalUnitHeader`. -/
structure HEVCNalUnitHeader where
  nal_unit_type : Nat
  nuh_layer_id : Nat
  nuh_temporal_id_plus1 : Nat
  is_irap : Bool
  is_key_frame : Bool
  deriving DecidableEq, Repr

/-- `parse_hevc_nal_unit_header`: two header bytes; types 16–21 are
IRAP, and IRAP/VPS(32)/SPS(33) count as key frames. -/
def parse_hevc_nal_unit_header (b0 b1 : Nat) : HEVCNalUnitHeader :=
  let t := (b0 >>> 1) &&& 0x3F
  let irap := 16 ≤ t ∧ t ≤ 21
  { nal_unit_type := t
    nuh_layer_id := ((b0 &&& 0x01) <<< 5) ||| ((b1 >>> 3) &&& 0x1F)
    nuh_temporal_id_plus1 := b1 &&& 0x07
    is_irap := irap
    is_key_frame := irap ∨ t = 32 ∨ t = 33 }

/-- `HEVCVpsInfo`. -/
structure HEVCVpsInfo where
  vps_id : Nat
  max_layers_minus1 : Nat
  max_sub_layers_minus1 : Nat
  deriving DecidableEq, Repr

/-- `parse_hevc_vps` (hevc_parser.cpp lines 75–105). -/
def parse_hevc_vps (data : List Nat) : Except Err HEVCVpsInfo :=
  if data.length = 0 then .error .emptyData
  else do
    let rbsp := remove_emulation_prevention_bytes data
    let r := mkReader rbsp
    let r ← skip_bits 16 r
    let (vps_id, r) ← read_bits 4 r
    let r ← skip_bits 1 r
    let r ← skip_bits 1 r
    let (max_layers_minus1, r) ← read_bits 6 r
    let (max_sub_layers_minus1, _) ← read_bits 3 r
    .ok { vps_id := vps_id
          max_layers_minus1 := max_layers_minus1
          max_sub_layers_minus1 := max_sub_layers_minus1 }

/-- Per-sub-layer presence-flag loop of `parse_hevc_profile_tier_level`:
`sub_layer_profile_present_flag` and `sub_layer_level_present_flag`
skipped for each sub-layer. -/
def ptlSublayerFlags : Nat → BitstreamReader → Except Err BitstreamReader
  | 0, r => .ok r
  | n + 1, r => do
    let r ← skip_bits 1 r
    let r ← skip_bits 1 r
    ptlSublayerFlags n r

/-- Reserved-bit loop of `parse_hevc_profile_tier_level`: two bits per
slot from `max_sub_layers_minus1` up to 8. -/
def ptlReserved : Nat → BitstreamReader → Except Err BitstreamReader
  | 0, r => .ok r
  | n + 1, r => do
    let r ← skip_bits 2 r
    ptlReserved n r

/-- Sub-layer section of `parse_hevc_profile_tier_level` (hevc_parser.cpp
lines 56–71): everything the function consumes after
`general_level_idc`. -/
def ptl_sublayers (max_sub_layers_minus1 : Nat) (r : BitstreamReader) :
    Except Err BitstreamReader := do
  let r ← ptlSublayerFlags max_sub_layers_minus1 r
  if 0 < max_sub_layers_minus1 then ptlReserved (8 - max_sub_layers_minus1) r
  else .ok r

/-- `parse_hevc_profile_tier_level` (hevc_parser.cpp lines 37–72):
returns `(general_tier_flag, general_profile_idc, general_level_idc)`,
keeping the supplied defaults when no profile block is present. -/
def parse_hevc_profile_tier_level (profile_present_flag : Bool)
    (max_sub_layers_minus1 tier0 profile0 : Nat) (r : BitstreamReader) :
    Except Err ((Nat × Nat × Nat) × BitstreamReader) := do
  let (tp, r) ← (do
    if profile_present_flag then
      let r ← skip_bits 2 r
      let (tier, r) ← read_bit r
      let (profile, r) ← read_bits 5 r
      let r ← skip_bits 32 r
      let r ← skip_bits 48 r
      pure (((tier, profile) : Nat × Nat), r)
    else pure ((tier0, profile0), r) : Except Err ((Nat × Nat) × BitstreamReader))
  let (level, r) ← read_bits 8 r
  let r ← ptl_sublayers max_sub_layers_minus1 r
  .ok ((tp.1, tp.2, level), r)

/-- `HEVCSpsInfo`.  As for AVC, `framerate` is never set by the parser
(the C++ field stays `nullopt`), and is carried as an optional pair. -/
structure HEVCSpsInfo where
  general_profile_idc : Nat
  general_level_idc : Nat
  general_tier_flag : Nat
  width : Nat
  height : Nat
  bit_depth_luma : Nat
  bit_depth_chroma : Nat
  chroma_format_idc : Nat
  framerate : Option (Nat × Nat)
  sps_id : Nat
  vps_id : Nat
  deriving DecidableEq, Repr

/-- `parse_hevc_sps` (hevc_parser.cpp lines 108–176): header skip,
vps id, sub-layer count, profile/tier/level, then chroma, luma sizes,
the conformance window (applied in wrapping `uint32_t` arithmetic) and
the bit depths. -/
def parse_hevc_sps (data : List Nat) : Except Err HEVCSpsInfo :=
  if data.length = 0 then .error .emptyData
  else do
    let rbsp := remove_emulation_prevention_bytes data
    let r := mkReader rbsp
    let r ← skip_bits 16 r
    let (vps_id, r) ← read_bits 4 r
    let (max_sub_layers_minus1, r) ← read_bits 3 r
    let r ← skip_bits 1 r
    let (ptl, r) ← parse_hevc_profile_tier_level true max_sub_layers_minus1 0 0 r
    let (sps_id_raw, r) ← read_ue r
    let (chroma_raw, r) ← read_ue r
    let chroma_format_idc := chroma_raw % 256
    let r ← if chroma_format_idc = 3 then skip_bits 1 r else pure r
    let (width0, r) ← read_ue r
    let (height0, r) ← read_ue r
    let (conf_bit, r) ← read_bit r
    let (wh, r) ← (do
      if conf_bit = 1 then
        let (conf_win_left_offset, r) ← read_ue r
        let (conf_win_right_offset, r) ← read_ue r
        let (conf_win_top_offset, r) ← read_ue r
        let (conf_win_bottom_offset, r) ← read_ue r
        let sub_width_c :=
          if chroma_format_idc = 1 ∨ chroma_format_idc = 2 then 2 else 1
        let sub_height_c := if chroma_format_idc = 1 then 2 else 1
        let w := sub32 width0
          (mod32 (mod32 (conf_win_left_offset + conf_win_right_offset) * sub_width_c))
        let h := sub32 height0
          (mod32 (mod32 (conf_win_top_offset + conf_win_bottom_offset) * sub_height_c))
        pure (((w, h) : Nat × Nat), r)
      else pure ((width0, height0), r) : Except Err ((Nat × Nat) × BitstreamReader))
    let (bdl_raw, r) ← read_ue r
    let (bdc_raw, _) ← read_ue r
    .ok { general_profile_idc := ptl.2.1
          general_level_idc := ptl.2.2
          general_tier_flag := ptl.1
          width := wh.1
          height := wh.2
          bit_depth_luma := (bdl_raw + 8) % 256
          bit_depth_chroma := (bdc_raw + 8) % 256
          chroma_format_idc := chroma_format_idc
          framerate := none
          sps_id := sps_id_raw % 256
          vps_id := vps_id }

/-- `HEVCPpsInfo`. -/
structure HEVCPpsInfo where
  pps_id : Nat
  sps_id : Nat
  deriving DecidableEq, Repr

/-- `parse_hevc_pps` (hevc_parser.cpp lines 179–201). -/
def parse_hevc_pps (data : List Nat) : Except Err HEVCPpsInfo :=
  if data.length = 0 then .error .emptyData
  else do
    let rbsp := remove_emulation_prevention_bytes data
    let r := mkReader rbsp
    let r ← skip_bits 16 r
    let (pps_id_raw, r) ← read_ue r
    let (sps_id_raw, _) ← read_ue r
    .ok { pps_id := pps_id_raw % 256, sps_id := sps_id_raw % 256 }

/-- `HEVCAnnexBInfo`. -/
structure HEVCAnnexBInfo where
  vps : Option HEVCVpsInfo
  sps : Option HEVCSpsInfo
  pps : Option HEVCPpsInfo
  nal_units : List HEVCNalUnitHeader
  deriving DecidableEq, Repr

/-- Per-span body of the `parse_hevc_annexb` loop: spans shorter than the
2-byte HEVC NAL header are skipped entirely; otherwise the header is
recorded and VPS/SPS/PPS decoding attempted by type, failures ignored. -/
def hevcAnnexbStep (d : List Nat) (info : HEVCAnnexBInfo) (span : Nat × Nat) :
    HEVCAnnexBInfo :=
  if span.2 < 2 then info
  else
    let header := parse_hevc_nal_unit_header (d.getD span.1 0) (d.getD (span.1 + 1) 0)
    let info := { info with nal_units := info.nal_units ++ [header] }
    if header.nal_unit_type = 32 then
      match parse_hevc_vps (sliceOf d span.1 span.2) with
      | .ok v => { info with vps := some v }
      | .error _ => info
    else if header.nal_unit_type = 33 then
      match parse_hevc_sps (sliceOf d span.1 span.2) with
      | .ok s => { info with sps := some s }
      | .error _ => info
    else if header.nal_unit_type = 34 then
      match parse_hevc_pps (sliceOf d span.1 span.2) with
      | .ok p => { info with pps := some p }
      | .error _ => info
    else info

/-- `parse_hevc_annexb` (hevc_parser.cpp lines 204–255). -/
def parse_hevc_annexb (data : List Nat) : Except Err HEVCAnnexBInfo :=
  if data.length = 0 then .error .emptyData
  else .ok ((find_annexb_nal_units data).foldl (hevcAnnexbStep data)
    { vps := none, sps := none, pps := none, nal_units := [] })

/-- `HEVCDescriptionInfo`. -/
structure HEVCDescriptionInfo where
  vps : Option HEVCVpsInfo
  sps : Option HEVCSpsInfo
  pps : Option HEVCPpsInfo
  nal_units : List HEVCNalUnitHeader
  length_size : Nat
  deriving DecidableEq, Repr

/-- Processing of one NAL unit inside an hvcC array (hevc_parser.cpp
lines 306–326): for payloads of at least two bytes, record the header
and dispatch on the array's type tag, ignoring decode failures. -/
def hevcDescNal (nal_type : Nat) (nal_data : List Nat)
    (info : HEVCDescriptionInfo) : HEVCDescriptionInfo :=
  if nal_data.length < 2 then info
  else
    let header := parse_hevc_nal_unit_header (nal_data.getD 0 0) (nal_data.getD 1 0)
    let info := { info with nal_units := info.nal_units ++ [header] }
    if nal_type = 32 then
      match parse_hevc_vps nal_data with
      | .ok v => { info with vps := some v }
      | .error _ => info
    else if nal_type = 33 then
      match parse_hevc_sps nal_data with
      | .ok s => { info with sps := some s }
      | .error _ => info
    else if nal_type = 34 then
      match parse_hevc_pps nal_data with
      | .ok p => { info with pps := some p }
      | .error _ => info
    else info

/-- Inner NAL loop of one hvcC array: up to `count` 2-byte-length-prefixed
units from `offset`; a truncated prefix or payload stops the loop. -/
def hevcDescNalLoop (d : List Nat) (nal_type : Nat) :
    Nat → Nat → HEVCDescriptionInfo → HEVCDescriptionInfo × Nat
  | 0, offset, info => (info, offset)
  | j + 1, offset, info =>
    if d.length < offset + 2 then (info, offset)
    else
      let len := d.getD offset 0 * 256 + d.getD (offset + 1) 0
      let offset := offset + 2
      if d.length < offset + len then (info, offset)
      else
        let info := hevcDescNal nal_type (sliceOf d offset len) info
        hevcDescNalLoop d nal_type j (offset + len) info

/-- Array loop of `parse_hevc_description`: each array entry holds a
type tag, a 2-byte unit count and that many units. -/
def hevcDescArrayLoop (d : List Nat) :
    Nat → Nat → HEVCDescriptionInfo → HEVCDescriptionInfo
  | 0, _, info => info
  | i + 1, offset, info =>
    if d.length < offset + 3 then info
    else
      let nal_type := d.getD offset 0 &&& 0x3F
      let num_nalus := d.getD (offset + 1) 0 * 256 + d.getD (offset + 2) 0
      let step := hevcDescNalLoop d nal_type num_nalus (offset + 3) info
      hevcDescArrayLoop d i step.2 step.1

/-- `parse_hevc_description` (hevc_parser.cpp lines 258–333): hvcC
records shorter than 23 bytes are rejected; `length_size` comes from
byte 21 and the array count from byte 22. -/
def parse_hevc_description (d : List Nat) : Except Err HEVCDescriptionInfo :=
  if d.length < 23 then .error .tooShort
  else .ok (hevcDescArrayLoop d (d.getD 22 0) 23
    { vps := none, sps := none, pps := none, nal_units := []
      length_size := (d.getD 21 0 &&& 0x03) + 1 })

/-- Whitespace as classified by `isspace` in the "C" locale, which
`std::stoi` skips before the number. -/
def isSpaceChar (c : Char) : Bool :=
  c = ' ' ∨ c = '\t' ∨ c = '\n' ∨ c = '\x0b' ∨ c = '\x0c' ∨ c = '\r'

/-- Value of one hexadecimal digit. -/
def hexVal (c : Char) : Option Nat :=
  if '0' ≤ c ∧ c ≤ '9' then some (c.toNat - '0'.toNat)
  else if 'a' ≤ c ∧ c ≤ 'f' then some (c.toNat - 'a'.toNat + 10)
  else if 'A' ≤ c ∧ c ≤ 'F' then some (c.toNat - 'A'.toNat + 10)
  else none

/-- `std::stoi(s, nullptr, 16)` on a two-character string: optional
leading whitespace or sign, then the longest run of hex digits; `none`
(an exception in C++) when no digit is found.  On two characters the
digit run is one or two digits, and a `0x` prefix degenerates to the
digit `0` followed by a non-digit. -/
def stoi16 (c0 c1 : Char) : Option Int :=
  if isSpaceChar c0 then (hexVal c1).map (fun v => (v : Int))
  else if c0 = '+' then (hexVal c1).map (fun v => (v : Int))
  else if c0 = '-' then (hexVal c1).map (fun v => -(v : Int))
  else
    match hexVal c0 with
    | some v0 =>
      match hexVal c1 with
      | some v1 => some ((v0 * 16 + v1 : Nat) : Int)
      | none => some ((v0 : Nat) : Int)
    | none => none

/-- `hex_to_uint8` (codec_parser.cpp lines 23–28): requires exactly two
characters, converts via `std::stoi` base 16 and narrows to `uint8_t`. -/
def hex_to_uint8 (l : List Char) : Except Err Nat :=
  if l.length ≠ 2 then .error .syntaxError
  else
    match l with
    | [c0, c1] =>
      match stoi16 c0 c1 with
      | some v => .ok (v.emod 256).toNat
      | none => .error .syntaxError
    | _ => .error .syntaxError

/-- `AVCCodecParameters`.  `pfx` models the C++ member named after the
codec-string prefix ("avc1" or "avc3"). -/
structure AVCCodecParameters where
  pfx : List Char
  profile_idc : Nat
  constraint_set_flags : Nat
  level_idc : Nat
  deriving DecidableEq, Repr

/-- `parse_avc_codec_string` (codec_parser.cpp lines 102–141): requires
length at least 11, an "avc1"/"avc3" head, a dot at index 4, then
decodes the three two-character groups of `substr(5, 6)`. -/
def parse_avc_codec_string (s : List Char) : Except Err AVCCodecParameters :=
  if s.length < 11 then .error .syntaxError
  else
    let p := s.take 4
    if ¬(p = "avc1".toList ∨ p = "avc3".toList) then .error .syntaxError
    else if ¬(s.getD 4 ' ' = '.') then .error .syntaxError
    else
      let hex_params := (s.drop 5).take 6
      if hex_params.length ≠ 6 then .error .syntaxError
      else do
        let pp ← hex_to_uint8 (hex_params.take 2)
        let cc ← hex_to_uint8 ((hex_params.drop 2).take 2)
        let ll ← hex_to_uint8 ((hex_params.drop 4).take 2)
        .ok { pfx := p
              profile_idc := pp
              constraint_set_flags := cc
              level_idc := ll }

/-- Presence-flag pairs of the claimed profile_tier_level sub-layer
handling: one `(profile_present, level_present)` bit pair per
sub-layer. -/
def ptlClaimFlags : Nat → BitstreamReader → Except Err (List (Nat × Nat) × BitstreamReader)
  | 0, r => .ok ([], r)
  | n + 1, r => do
    let (p, r) ← read_bit r
    let (l, r) ← read_bit r
    let (rest, r2) ← ptlClaimFlags n r
    .ok ((p, l) :: rest, r2)

/-- Field skips of the claimed sub-layer handling: an 88-bit sub-layer
profile block when its presence flag is set and an 8-bit sub-layer level
when its flag is set (the field widths of the H.265 syntax). -/
def ptlClaimSkips : List (Nat × Nat) → BitstreamReader → Except Err BitstreamReader
  | [], r => .ok r
  | (p, l) :: rest, r => do
    let r ← if p = 1 then skip_bits 88 r else pure r
    let r ← if l = 1 then skip_bits 8 r else pure r
    ptlClaimSkips rest r

/-- Sub-layer section of profile_tier_level as the specification words
it: skip 2 presence-flag bits per sub-layer, then skip the per-sub-layer
profile/level fields those flags announce.  Written from the claim, for
comparison against `ptl_sublayers` (the code's behaviour). -/
def ptl_sublayers_claimed (max_sub_layers_minus1 : Nat) (r : BitstreamReader) :
    Except Err BitstreamReader := do
  let (flags, r) ← ptlClaimFlags max_sub_layers_minus1 r
  ptlClaimSkips flags r

/-- Bit layout of a Baseline-profile 640×480 AVC SPS: NAL header 0x67,
profile 66, constraint flags 0xC0, level 30, then sps_id=0,
log2_max_frame_num_minus4=0, pic_order_cnt_type=2, max_num_ref_frames=0,
no gaps, `pic_width_in_mbs_minus1 = 39`,
`pic_height_in_map_units_minus1 = 29`, frame_mbs_only,
direct_8x8_inference, no cropping, no VUI. -/
def avcSps640Bits : List Nat :=
  [0,1,1,0,0,1,1,1] ++ [0,1,0,0,0,0,1,0] ++ [1,1,0,0,0,0,0,0] ++ [0,0,0,1,1,1,1,0] ++
  [1] ++ [1] ++ [0,1,1] ++ [1] ++ [0] ++
  [0,0,0,0,0,1,0,1,0,0,0] ++ [0,0,0,0,1,1,1,1,0] ++ [1] ++ [1] ++ [0] ++ [0]

/-- The 640×480 Baseline SPS as bytes (`packBits avcSps640Bits`). -/
def avcSps640 : List Nat := [103, 66, 192, 30, 220, 10, 3, 216]

/-- Decode of `avcSps640`. -/
def avcSps640Info : AVCSpsInfo :=
  { profile_idc := 66, level_idc := 30, constraint_set_flags := 192
    width := 640, height := 480, bit_depth_luma := 8, bit_depth_chroma := 8
    chroma_format_idc := 1, framerate := none, sps_id := 0 }

/-- A second decodable Baseline SPS, 320×240 at level 20 (same layout as
`avcSps640Bits` with `pic_width_in_mbs_minus1 = 19`,
`pic_height_in_map_units_minus1 = 14`). -/
def avcSps320Bits : List Nat :=
  [0,1,1,0,0,1,1,1] ++ [0,1,0,0,0,0,1,0] ++ [1,1,0,0,0,0,0,0] ++ [0,0,0,1,0,1,0,0] ++
  [1] ++ [1] ++ [0,1,1] ++ [1] ++ [0] ++
  [0,0,0,0,1,0,1,0,0] ++ [0,0,0,1,1,1,1] ++ [1] ++ [1] ++ [0] ++ [0]

/-- The 320×240 SPS as bytes (`packBits avcSps320Bits`). -/
def avcSps320 : List Nat := [103, 66, 192, 20, 220, 20, 31, 128]

/-- Decode of `avcSps320`. -/
def avcSps320Info : AVCSpsInfo :=
  { profile_idc := 66, level_idc := 20, constraint_set_flags := 192
    width := 320, height := 240, bit_depth_luma := 8, bit_depth_chroma := 8
    chroma_format_idc := 1, framerate := none, sps_id := 0 }

/-- Header of an SPS NAL whose first byte is 0x67. -/
def avcSpsHeader : AVCNalUnitHeader :=
  { nal_unit_type := 7, nal_ref_idc := 3, is_idr := false, is_key_frame := true }

/-- Annex-B buffer holding two different decodable SPS NAL units. -/
def avcTwoSpsBuf : List Nat :=
  [0, 0, 0, 1] ++ avcSps640 ++ [0, 0, 0, 1] ++ avcSps320

/-- Baseline AVC SPS whose cropping exceeds the picture:
`pic_width_in_mbs_minus1 = 0` (16 luma samples) with
`frame_crop_left_offset = 9` (18 cropped samples at crop unit 2). -/
def avcWrapSpsBits : List Nat :=
  [0,1,1,0,0,1,1,1] ++ [0,1,0,0,0,0,1,0] ++ [1,1,0,0,0,0,0,0] ++ [0,0,0,1,1,1,1,0] ++
  [1] ++ [1] ++ [0,1,1] ++ [1] ++ [0] ++
  [1] ++ [1] ++ [1] ++ [1] ++ [1] ++
  [0,0,0,1,0,1,0] ++ [1] ++ [1] ++ [1] ++ [0]

/-- The over-cropped AVC SPS as bytes (`packBits avcWrapSpsBits`). -/
def avcWrapSps : List Nat := [103, 66, 192, 30, 221, 241, 92]

/-- Decode of `avcWrapSps`: the width has wrapped to `2^32 - 2`. -/
def avcWrapSpsInfo : AVCSpsInfo :=
  { profile_idc := 66, level_idc := 30, constraint_set_flags := 192
    width := 4294967294, height := 16, bit_depth_luma := 8, bit_depth_chroma := 8
    chroma_format_idc := 1, framerate := none, sps_id := 0 }

/-- HEVC SPS whose conformance window exceeds the picture:
`pic_width_in_luma_samples = 16` with `conf_win_left_offset = 9`
(18 cropped samples at sub_width_c 2). -/
def hevcWrapSpsBits : List Nat :=
  [0,1,0,0,0,0,1,0] ++ [0,0,0,0,0,0,0,1] ++
  [0,0,0,0] ++ [0,0,0] ++ [1] ++
  [0,0] ++ [0] ++ [0,0,0,0,1] ++ List.replicate 32 1 ++ List.replicate 48 1 ++
  [0,1,0,1,1,0,1,0] ++
  [1] ++ [0,1,0] ++
  [0,0,0,0,1,0,0,0,1] ++ [0,0,0,0,1,0,0,0,1] ++ [1] ++
  [0,0,0,1,0,1,0] ++ [1] ++ [1] ++ [1] ++
  [1] ++ [1]

/-- The over-cropped HEVC SPS as bytes (`packBits hevcWrapSpsBits`). -/
def hevcWrapSps : List Nat :=
  [66, 1, 1, 1, 255, 255, 255, 255, 255, 255, 255, 255, 255, 255, 90, 160, 136, 70, 43, 224]

/-- Decode of `hevcWrapSps`: the width has wrapped to `2^32 - 2`. -/
def hevcWrapSpsInfo : HEVCSpsInfo :=
  { general_profile_idc := 1, general_level_idc := 90, general_tier_flag := 0
    width := 4294967294, height := 16, bit_depth_luma := 8, bit_depth_chroma := 8
    chroma_format_idc := 1, framerate := none, sps_id := 0, vps_id := 0 }

/-- The ten-byte Annex-B example buffer of the specification. -/
def annexbExampleBuf : List Nat := [0, 0, 0, 1, 0x67, 0x42, 0, 0, 1, 0x68]

/-- All-ones buffer driving both profile_tier_level sub-layer variants:
13 bytes suffice for the 98 bits the claimed variant consumes. -/
def ptlCexBuf : List Nat := List.replicate 13 255

/-- `sub_width_c` as tabulated by the specification: 2 for chroma
formats 1 (4:2:0) and 2 (4:2:2), 1 for 3 (4:4:4) and 0 (monochrome). -/
def claimSubWidthC (idc : Nat) : Nat :=
  if idc = 1 then 2 else if idc = 2 then 2 else 1

/-- `sub_height_c` as tabulated by the specification: 2 for 4:2:0,
else 1. -/
def claimSubHeightC (idc : Nat) : Nat := if idc = 1 then 2 else 1

/-- `crop_unit_y` of the specification's AVC resolution formula. -/
def claimCropUnitY (idc : Nat) (frame_mbs_only : Bool) : Nat :=
  claimSubHeightC idc * (if frame_mbs_only then 1 else 2)

/-- No `00 00 03` run anywhere in the buffer. -/
def noEmuTriple (l : List Nat) : Prop :=
  ∀ i, i + 2 < l.length →
    ¬(l.getD i 0 = 0 ∧ l.getD (i + 1) 0 = 0 ∧ l.getD (i + 2) 0 = 3)

theorem eBind_ok (a : α) (f : α → Except Err β) : (Except.ok a >>= f) = f a := rfl

theorem eBind_err (e : Err) (f : α → Except Err β) :
    (Except.error e >>= f : Except Err β) = Except.error e := rfl

theorem ePure (a : α) : (pure a : Except Err α) = Except.ok a := rfl

/-- A successful `read_bit` keeps the buffer, advances the cursor by one
bit, proves the cursor was in bounds, and preserves the sub-byte
invariant. -/
theorem read_bit_ok {r r1 : BitstreamReader} {b : Nat}
    (h : read_bit r = .ok (b, r1)) :
    r1.data = r.data ∧ bitIndex r1 = bitIndex r + 1 ∧
      r.byte_position < r.data.length ∧
      (r.bit_position < 8 → r1.bit_position < 8) := by
  unfold read_bit at h
  split at h
  · cases h
  · rename_i hlt
    split at h
    · rename_i hbit
      simp only [Except.ok.injEq, Prod.mk.injEq] at h
      obtain ⟨hb, hr⟩ := h
      subst hr
      refine ⟨rfl, ?_, by omega, fun hp => by show (0 : Nat) < 8; omega⟩
      show 8 * (r.byte_position + 1) + 0 = 8 * r.byte_position + r.bit_position + 1
      omega
    · rename_i hbit
      simp only [Except.ok.injEq, Prod.mk.injEq] at h
      obtain ⟨hb, hr⟩ := h
      subst hr
      refine ⟨rfl, ?_, by omega, fun hp => by show r.bit_position + 1 < 8; omega⟩
      show 8 * r.byte_position + (r.bit_position + 1) = 8 * r.byte_position + r.bit_position + 1
      omega

/-- `read_bit` only ever fails with `outOfData`. -/
theorem read_bit_err {r : BitstreamReader} {e : Err}
    (h : read_bit r = .error e) : e = .outOfData := by
  unfold read_bit at h
  split at h
  · cases h; rfl
  · split at h <;> cases h

/-- A successful `skip_bits n` keeps the buffer and advances by `n`
bits. -/
theorem skip_bits_ok : ∀ {n : Nat} {r r1 : BitstreamReader},
    skip_bits n r = .ok r1 →
    r1.data = r.data ∧ bitIndex r1 = bitIndex r + n := by
  intro n
  induction n with
  | zero => intro r r1 h; cases h; exact ⟨rfl, rfl⟩
  | succ n ih =>
    intro r r1 h
    unfold skip_bits at h
    cases hb : read_bit r with
    | error e => rw [hb, eBind_err] at h; cases h
    | ok a =>
      rw [hb, eBind_ok] at h
      obtain ⟨h1, h2, -, -⟩ := read_bit_ok hb
      obtain ⟨h3, h4⟩ := ih h
      refine ⟨h3.trans h1, ?_⟩
      omega

/-- `ptlSublayerFlags` consumes two bits per sub-layer. -/
theorem ptlSublayerFlags_ok : ∀ {n : Nat} {r r1 : BitstreamReader},
    ptlSublayerFlags n r = .ok r1 →
    r1.data = r.data ∧ bitIndex r1 = bitIndex r + 2 * n := by
  intro n
  induction n with
  | zero => intro r r1 h; cases h; exact ⟨rfl, rfl⟩
  | succ n ih =>
    intro r r1 h
    unfold ptlSublayerFlags at h
    cases h1 : skip_bits 1 r with
    | error e => rw [h1, eBind_err] at h; cases h
    | ok ra =>
      rw [h1, eBind_ok] at h
      cases h2 : skip_bits 1 ra with
      | error e => rw [h2, eBind_err] at h; cases h
      | ok rb =>
        rw [h2, eBind_ok] at h
        obtain ⟨ha1, ha2⟩ := skip_bits_ok h1
        obtain ⟨hb1, hb2⟩ := skip_bits_ok h2
        obtain ⟨hc1, hc2⟩ := ih h
        refine ⟨hc1.trans (hb1.trans ha1), ?_⟩
        omega

/-- `ptlReserved` consumes two bits per slot. -/
theorem ptlReserved_ok : ∀ {n : Nat} {r r1 : BitstreamReader},
    ptlReserved n r = .ok r1 →
    r1.data = r.data ∧ bitIndex r1 = bitIndex r + 2 * n := by
  intro n
  induction n with
  | zero => intro r r1 h; cases h; exact ⟨rfl, rfl⟩
  | succ n ih =>
    intro r r1 h
    unfold ptlReserved at h
    cases h1 : skip_bits 2 r with
    | error e => rw [h1, eBind_err] at h; cases h
    | ok ra =>
      rw [h1, eBind_ok] at h
      obtain ⟨ha1, ha2⟩ := skip_bits_ok h1
      obtain ⟨hc1, hc2⟩ := ih h
      refine ⟨hc1.trans ha1, ?_⟩
      omega

/-- Bits consumed by `readBitsAux` would cross the buffer end: the loop
hits `outOfData` before returning any partial value. -/
theorem readBitsAux_fail : ∀ (n acc : Nat) (r : BitstreamReader), 1 ≤ n →
    r.bit_position < 8 → 8 * r.data.length < bitIndex r + n →
    readBitsAux n acc r = .error .outOfData := by
  intro n
  induction n with
  | zero => intro acc r h; omega
  | succ n ih =>
    intro acc r h1 h2 h3
    unfold readBitsAux
    cases hb : read_bit r with
    | error e =>
      have he := read_bit_err hb
      subst he
      rw [eBind_err]
    | ok a =>
      obtain ⟨b, r1⟩ := a
      rw [eBind_ok]
      obtain ⟨hd, hi, hby, hbp⟩ := read_bit_ok hb
      have hlen : r1.data.length = r.data.length := by rw [hd]
      have hbound : bitIndex r + 1 ≤ 8 * r.data.length := by
        unfold bitIndex; omega
      exact ih (acc * 2 + b) r1 (by omega) (hbp h2) (by omega)

/-- Sub-layer section of the code's profile_tier_level: exactly the two
presence-flag bits per sub-layer plus the reserved pairs, 16 bits in all
whenever there is at least one sub-layer. -/
theorem ptl_sublayers_consumed : ∀ (msl : Nat) (r r1 : BitstreamReader),
    msl ≤ 7 → ptl_sublayers msl r = .ok r1 →
    bitIndex r1 = bitIndex r + (if msl = 0 then 0 else 16) := by
  intro msl r r1 hmsl h
  unfold ptl_sublayers at h
  cases h1 : ptlSublayerFlags msl r with
  | error e => rw [h1, eBind_err] at h; cases h
  | ok ra =>
    rw [h1, eBind_ok] at h
    obtain ⟨ha1, ha2⟩ := ptlSublayerFlags_ok h1
    split at h
    · obtain ⟨hb1, hb2⟩ := ptlReserved_ok h
      rename_i hpos
      rw [hb2, ha2, if_neg (by omega)]
      omega
    · cases h
      rename_i hpos
      have h0 : msl = 0 := by omega
      rw [h0]
      simp [ha2, h0]

/-- `ptl_sublayers` on the all-ones buffer: 16 bits consumed. -/
theorem ptlCexCode : ptl_sublayers 1 (mkReader ptlCexBuf) = .ok ⟨ptlCexBuf, 2, 0⟩ := by
  have s1 : skip_bits 1 (mkReader ptlCexBuf) = .ok ⟨ptlCexBuf, 0, 1⟩ := rfl
  have s2 : skip_bits 1 (⟨ptlCexBuf, 0, 1⟩ : BitstreamReader) = .ok ⟨ptlCexBuf, 0, 2⟩ := rfl
  have s3 : skip_bits 2 (⟨ptlCexBuf, 0, 2⟩ : BitstreamReader) = .ok ⟨ptlCexBuf, 0, 4⟩ := rfl
  have s4 : skip_bits 2 (⟨ptlCexBuf, 0, 4⟩ : BitstreamReader) = .ok ⟨ptlCexBuf, 0, 6⟩ := rfl
  have s5 : skip_bits 2 (⟨ptlCexBuf, 0, 6⟩ : BitstreamReader) = .ok ⟨ptlCexBuf, 1, 0⟩ := rfl
  have s6 : skip_bits 2 (⟨ptlCexBuf, 1, 0⟩ : BitstreamReader) = .ok ⟨ptlCexBuf, 1, 2⟩ := rfl
  have s7 : skip_bits 2 (⟨ptlCexBuf, 1, 2⟩ : BitstreamReader) = .ok ⟨ptlCexBuf, 1, 4⟩ := rfl
  have s8 : skip_bits 2 (⟨ptlCexBuf, 1, 4⟩ : BitstreamReader) = .ok ⟨ptlCexBuf, 1, 6⟩ := rfl
  have s9 : skip_bits 2 (⟨ptlCexBuf, 1, 6⟩ : BitstreamReader) = .ok ⟨ptlCexBuf, 2, 0⟩ := rfl
  simp [ptl_sublayers, ptlSublayerFlags, ptlReserved, s1, s2, s3, s4, s5, s6, s7, s8, s9,
    eBind_ok, ePure]

set_option maxRecDepth 10000 in
/-- The claimed sub-layer handling on the same buffer: 98 bits consumed
(2 presence flags, an 88-bit sub-layer profile, an 8-bit sub-layer
level). -/
theorem ptlCexClaimed :
    ptl_sublayers_claimed 1 (mkReader ptlCexBuf) = .ok ⟨ptlCexBuf, 12, 2⟩ := by
  have s1 : read_bit (mkReader ptlCexBuf) = .ok (1, ⟨ptlCexBuf, 0, 1⟩) := rfl
  have s2 : read_bit (⟨ptlCexBuf, 0, 1⟩ : BitstreamReader) = .ok (1, ⟨ptlCexBuf, 0, 2⟩) := rfl
  have s3 : skip_bits 88 (⟨ptlCexBuf, 0, 2⟩ : BitstreamReader) = .ok ⟨ptlCexBuf, 11, 2⟩ := rfl
  have s4 : skip_bits 8 (⟨ptlCexBuf, 11, 2⟩ : BitstreamReader) = .ok ⟨ptlCexBuf, 12, 2⟩ := rfl
  simp [ptl_sublayers_claimed, ptlClaimFlags, ptlClaimSkips, s1, s2, s3, s4, eBind_ok, ePure]

/-- C3 (counterexample): on `[0,0,0,1, 0x67, 0x42, 0,0,1, 0x68]` the
scanner does not return `{offset 4, length 4}` as its first span — the
next start code already begins at offset 6, so the first span has
length 2. -/
theorem annexb_scanner_example_cex :
    find_annexb_nal_units annexbExampleBuf ≠ [(4, 4), (9, 1)] := by decide

/-- C3 (amended): the Annex-B scanner on
`[0,0,0,1, 0x67, 0x42, 0,0,1, 0x68]` returns exactly the spans
`{offset 4, length 2}` and `{offset 9, length 1}`: each span starts
immediately after its start code and ends immediately before the next 3-
or 4-byte start code or at buffer end. -/
theorem annexb_scanner_example :
    find_annexb_nal_units annexbExampleBuf = [(4, 2), (9, 1)] := by rfl

/-- C4 (counterexample): with one sub-layer and both presence flags set,
the code's profile_tier_level sub-layer handling consumes 16 bits
(2 flag bits + 14 reserved bits) while the claimed handling — skip the
flags, then the announced per-sub-layer profile/level fields — consumes
98 bits: the two disagree already on where the reader ends up. -/
theorem hevc_ptl_sublayer_claim_cex :
    ptl_sublayers 1 (mkReader ptlCexBuf) = .ok ⟨ptlCexBuf, 2, 0⟩ ∧
    ptl_sublayers_claimed 1 (mkReader ptlCexBuf) = .ok ⟨ptlCexBuf, 12, 2⟩ ∧
    (⟨ptlCexBuf, 2, 0⟩ : BitstreamReader) ≠ ⟨ptlCexBuf, 12, 2⟩ := by
  refine ⟨ptlCexCode, ptlCexClaimed, by decide⟩

/-- C4 (amended): after `general_level_idc`, the profile_tier_level
decode of `parse_hevc_sps` consumes exactly 2 presence-flag bits per
sub-layer plus 2 reserved bits for each of the remaining `8 - msl`
slots — 16 bits in total whenever `max_sub_layers_minus1 > 0`, and none
when it is 0 — and skips no per-sub-layer profile/level fields before
the `sps_seq_parameter_set_id` read. -/
theorem hevc_ptl_sublayer_bits : ∀ (msl : Nat) (r r1 : BitstreamReader),
    msl ≤ 7 → ptl_sublayers msl r = .ok r1 →
    bitIndex r1 = bitIndex r + (if msl = 0 then 0 else 16) :=
  ptl_sublayers_consumed

theorem hevc_ptl_sublayer_bits_witness :
    bitIndex (⟨ptlCexBuf, 2, 0⟩ : BitstreamReader) =
      bitIndex (mkReader ptlCexBuf) + (if 1 = 0 then 0 else 16) :=
  hevc_ptl_sublayer_bits 1 (mkReader ptlCexBuf) ⟨ptlCexBuf, 2, 0⟩ (by decide) ptlCexCode

/-- C10 (confirmed): a length-1 span contributes nothing to
`parse_hevc_annexb` — the per-span step is the identity, so no NAL
header is recorded and no decode attempted — while the AVC per-span step
records a header for every span of length ≥ 1; `parse_hevc_annexb` is
exactly the fold of its step over the scanner's spans. -/
theorem hevc_annexb_short_span_skip :
    (∀ (d : List Nat) (info : HEVCAnnexBInfo) (o : Nat),
      hevcAnnexbStep d info (o, 1) = info) ∧
    (∀ (d : List Nat) (info : AVCAnnexBInfo) (o l : Nat), 1 ≤ l →
      (avcAnnexbStep d info (o, l)).nal_units =
        info.nal_units ++ [parse_avc_nal_unit_header (d.getD o 0)]) ∧
    (∀ d : List Nat, d.length ≠ 0 →
      parse_hevc_annexb d = .ok ((find_annexb_nal_units d).foldl (hevcAnnexbStep d)
        { vps := none, sps := none, pps := none, nal_units := [] })) := by
  refine ⟨?_, ?_, ?_⟩
  · intro d info o
    unfold hevcAnnexbStep
    rw [if_pos (by norm_num)]
  · intro d info o l hl
    unfold avcAnnexbStep
    rw [if_neg (by simp; omega)]
    dsimp only
    split_ifs with h1 h2
    · cases hp : parse_avc_sps (sliceOf d (o, l).1 (o, l).2) <;> simp
    · cases hp : parse_avc_pps (sliceOf d (o, l).1 (o, l).2) <;> simp
    · simp
  · intro d hd
    unfold parse_hevc_annexb
    rw [if_neg hd]

theorem hevc_annexb_short_span_skip_witness :
    hevcAnnexbStep annexbExampleBuf
        { vps := none, sps := none, pps := none, nal_units := [] } (9, 1) =
      { vps := none, sps := none, pps := none, nal_units := [] } ∧
    (avcAnnexbStep annexbExampleBuf
        { sps := none, pps := none, nal_units := [] } (9, 1)).nal_units =
      [] ++ [parse_avc_nal_unit_header (annexbExampleBuf.getD 9 0)] :=
  ⟨hevc_annexb_short_span_skip.1 annexbExampleBuf _ 9,
   hevc_annexb_short_span_skip.2.1 annexbExampleBuf _ 9 1 (by decide)⟩

/-- C7 (confirmed): `read_bit` at or past the buffer end fails with
`outOfData`; `read_bits n` for `n > 32` fails with `invalidWidth`; and a
`read_bits` whose bits would cross the buffer end fails with `outOfData`
instead of returning partial or zero-filled data. -/
theorem reader_out_of_bounds_fails :
    (∀ r : BitstreamReader, r.data.length ≤ r.byte_position →
      read_bit r = .error .outOfData) ∧
    (∀ (n : Nat) (r : BitstreamReader), 32 < n →
      read_bits n r = .error .invalidWidth) ∧
    (∀ (n : Nat) (r : BitstreamReader), 1 ≤ n → n ≤ 32 → r.bit_position < 8 →
      8 * r.data.length < bitIndex r + n → read_bits n r = .error .outOfData) := by
  refine ⟨?_, ?_, ?_⟩
  · intro r h
    unfold read_bit
    rw [if_pos h]
  · intro n r h
    unfold read_bits
    rw [if_pos h]
  · intro n r h1 h2 h3 h4
    unfold read_bits
    rw [if_neg (by omega)]
    exact readBitsAux_fail n 0 r h1 h3 h4

theorem reader_out_of_bounds_fails_witness :
    read_bit ⟨[], 0, 0⟩ = .error .outOfData ∧
    read_bits 33 (mkReader []) = .error .invalidWidth ∧
    read_bits 8 ⟨[255], 0, 1⟩ = .error .outOfData :=
  ⟨reader_out_of_bounds_fails.1 ⟨[], 0, 0⟩ (by decide),
   reader_out_of_bounds_fails.2.1 33 (mkReader []) (by decide),
   reader_out_of_bounds_fails.2.2 8 ⟨[255], 0, 1⟩ (by decide) (by decide) (by decide)
     (by decide)⟩

/-- Length-bounded induction for the normalizer identity on triple-free
buffers. -/
theorem rebsp_id_aux : ∀ (n : Nat) (l : List Nat), l.length ≤ n → noEmuTriple l →
    remove_emulation_prevention_bytes l = l := by
  intro n
  induction n with
  | zero =>
    intro l hl _
    have : l = [] := by
      cases l with
      | nil => rfl
      | cons a t => simp at hl
    rw [this]
    rfl
  | succ n ih =>
    intro l hl ht
    match l with
    | [] => rfl
    | [a] => rfl
    | [a, b] => rfl
    | a :: b :: c :: rest =>
      rw [remove_emulation_prevention_bytes]
      have hshift : noEmuTriple (b :: c :: rest) := by
        intro i hi
        have := ht (i + 1) (by simp at hi ⊢; omega)
        simpa using this
      split
      · rename_i habc
        obtain ⟨h1, h2, h3⟩ := habc
        have h0 := ht 0 (by simp)
        simp [h1, h2, h3] at h0
      · have := ih (b :: c :: rest) (by simp at hl ⊢; omega) hshift
        rw [this]

/-- C8 (confirmed): `remove_emulation_prevention_bytes` returns its
input unchanged when no `00 00 03` run occurs, collapses every
`00 00 03` head to `00 00` and resumes after the dropped byte, and in
particular maps `[0,0,3,1]` to `[0,0,1]`. -/
theorem rbsp_normalization_spec :
    (∀ l : List Nat, noEmuTriple l → remove_emulation_prevention_bytes l = l) ∧
    (∀ rest : List Nat, remove_emulation_prevention_bytes (0 :: 0 :: 3 :: rest) =
      0 :: 0 :: remove_emulation_prevention_bytes rest) ∧
    remove_emulation_prevention_bytes [0, 0, 3, 1] = [0, 0, 1] := by
  refine ⟨fun l => rebsp_id_aux l.length l le_rfl, fun rest => ?_, by decide⟩
  rw [remove_emulation_prevention_bytes]
  rw [if_pos ⟨rfl, rfl, rfl⟩]

theorem rbsp_normalization_spec_witness :
    remove_emulation_prevention_bytes [1, 2, 3] = [1, 2, 3] :=
  rbsp_normalization_spec.1 [1, 2, 3] (by
    intro i hi
    simp only [List.length_cons, List.length_nil] at hi
    have h0 : i = 0 := by omega
    subst h0
    decide)

/-- Head section of the 640×480 Baseline SPS. -/
theorem a640_head : parse_avc_sps_head (mkReader avcSps640) =
    .ok (⟨66, 192, 30, 0, 1, 8, 8⟩, ⟨avcSps640, 4, 7⟩) := by
  have s1 : skip_bits 8 (mkReader avcSps640) = .ok ⟨avcSps640, 1, 0⟩ := rfl
  have s2 : read_bits 8 ⟨avcSps640, 1, 0⟩ = .ok (66, ⟨avcSps640, 2, 0⟩) := rfl
  have s3 : read_bits 8 ⟨avcSps640, 2, 0⟩ = .ok (192, ⟨avcSps640, 3, 0⟩) := rfl
  have s4 : read_bits 8 ⟨avcSps640, 3, 0⟩ = .ok (30, ⟨avcSps640, 4, 0⟩) := rfl
  have s5 : read_ue ⟨avcSps640, 4, 0⟩ = .ok (0, ⟨avcSps640, 4, 1⟩) := rfl
  have s6 : read_ue ⟨avcSps640, 4, 1⟩ = .ok (0, ⟨avcSps640, 4, 2⟩) := rfl
  have s7 : read_ue ⟨avcSps640, 4, 2⟩ = .ok (2, ⟨avcSps640, 4, 5⟩) := rfl
  have s8 : read_ue ⟨avcSps640, 4, 5⟩ = .ok (0, ⟨avcSps640, 4, 6⟩) := rfl
  have s9 : skip_bits 1 ⟨avcSps640, 4, 6⟩ = .ok ⟨avcSps640, 4, 7⟩ := rfl
  simp [parse_avc_sps_head, s1, s2, s3, s4, s5, s6, s7, s8, s9, eBind_ok, ePure,
    isHighProfile]

/-- Geometry section of the 640×480 Baseline SPS. -/
theorem a640_geom : parse_avc_sps_geometry ⟨avcSps640, 4, 7⟩ =
    .ok (⟨39, 29, true, false, 0, 0, 0, 0⟩, ⟨avcSps640, 7, 6⟩) := by
  have s1 : read_ue ⟨avcSps640, 4, 7⟩ = .ok (39, ⟨avcSps640, 6, 2⟩) := rfl
  have s2 : read_ue ⟨avcSps640, 6, 2⟩ = .ok (29, ⟨avcSps640, 7, 3⟩) := rfl
  have s3 : read_bit ⟨avcSps640, 7, 3⟩ = .ok (1, ⟨avcSps640, 7, 4⟩) := rfl
  have s4 : skip_bits 1 ⟨avcSps640, 7, 4⟩ = .ok ⟨avcSps640, 7, 5⟩ := rfl
  have s5 : read_bit ⟨avcSps640, 7, 5⟩ = .ok (0, ⟨avcSps640, 7, 6⟩) := rfl
  simp [parse_avc_sps_geometry, s1, s2, s3, s4, s5, eBind_ok, ePure]

/-- VUI section of the 640×480 Baseline SPS (flag clear). -/
theorem a640_vui : parse_avc_sps_vui ⟨avcSps640, 7, 6⟩ = .ok (none, ⟨avcSps640, 7, 7⟩) := by
  have s1 : read_bit ⟨avcSps640, 7, 6⟩ = .ok (0, ⟨avcSps640, 7, 7⟩) := rfl
  simp [parse_avc_sps_vui, s1, eBind_ok, ePure]

/-- The 640×480 Baseline SPS decodes as expected. -/
theorem a640_parse : parse_avc_sps avcSps640 = .ok avcSps640Info := by
  have hrb : remove_emulation_prevention_bytes avcSps640 = avcSps640 := rfl
  simp [parse_avc_sps, hrb, a640_head, a640_geom, a640_vui, eBind_ok, ePure,
    avc_dimensions, mod32, sub32, avcSps640Info]
  simp [avcSps640]

/-- Head section of the 320×240 SPS. -/
theorem a320_head : parse_avc_sps_head (mkReader avcSps320) =
    .ok (⟨66, 192, 20, 0, 1, 8, 8⟩, ⟨avcSps320, 4, 7⟩) := by
  have s1 : skip_bits 8 (mkReader avcSps320) = .ok ⟨avcSps320, 1, 0⟩ := rfl
  have s2 : read_bits 8 ⟨avcSps320, 1, 0⟩ = .ok (66, ⟨avcSps320, 2, 0⟩) := rfl
  have s3 : read_bits 8 ⟨avcSps320, 2, 0⟩ = .ok (192, ⟨avcSps320, 3, 0⟩) := rfl
  have s4 : read_bits 8 ⟨avcSps320, 3, 0⟩ = .ok (20, ⟨avcSps320, 4, 0⟩) := rfl
  have s5 : read_ue ⟨avcSps320, 4, 0⟩ = .ok (0, ⟨avcSps320, 4, 1⟩) := rfl
  have s6 : read_ue ⟨avcSps320, 4, 1⟩ = .ok (0, ⟨avcSps320, 4, 2⟩) := rfl
  have s7 : read_ue ⟨avcSps320, 4, 2⟩ = .ok (2, ⟨avcSps320, 4, 5⟩) := rfl
  have s8 : read_ue ⟨avcSps320, 4, 5⟩ = .ok (0, ⟨avcSps320, 4, 6⟩) := rfl
  have s9 : skip_bits 1 ⟨avcSps320, 4, 6⟩ = .ok ⟨avcSps320, 4, 7⟩ := rfl
  simp [parse_avc_sps_head, s1, s2, s3, s4, s5, s6, s7, s8, s9, eBind_ok, ePure,
    isHighProfile]

/-- Geometry section of the 320×240 SPS. -/
theorem a320_geom : parse_avc_sps_geometry ⟨avcSps320, 4, 7⟩ =
    .ok (⟨19, 14, true, false, 0, 0, 0, 0⟩, ⟨avcSps320, 7, 2⟩) := by
  have s1 : read_ue ⟨avcSps320, 4, 7⟩ = .ok (19, ⟨avcSps320, 6, 0⟩) := rfl
  have s2 : read_ue ⟨avcSps320, 6, 0⟩ = .ok (14, ⟨avcSps320, 6, 7⟩) := rfl
  have s3 : read_bit ⟨avcSps320, 6, 7⟩ = .ok (1, ⟨avcSps320, 7, 0⟩) := rfl
  have s4 : skip_bits 1 ⟨avcSps320, 7, 0⟩ = .ok ⟨avcSps320, 7, 1⟩ := rfl
  have s5 : read_bit ⟨avcSps320, 7, 1⟩ = .ok (0, ⟨avcSps320, 7, 2⟩) := rfl
  simp [parse_avc_sps_geometry, s1, s2, s3, s4, s5, eBind_ok, ePure]

/-- VUI section of the 320×240 SPS (flag clear). -/
theorem a320_vui : parse_avc_sps_vui ⟨avcSps320, 7, 2⟩ = .ok (none, ⟨avcSps320, 7, 3⟩) := by
  have s1 : read_bit ⟨avcSps320, 7, 2⟩ = .ok (0, ⟨avcSps320, 7, 3⟩) := rfl
  simp [parse_avc_sps_vui, s1, eBind_ok, ePure]

/-- The 320×240 SPS decodes as expected. -/
theorem a320_parse : parse_avc_sps avcSps320 = .ok avcSps320Info := by
  have hrb : remove_emulation_prevention_bytes avcSps320 = avcSps320 := rfl
  simp [parse_avc_sps, hrb, a320_head, a320_geom, a320_vui, eBind_ok, ePure,
    avc_dimensions, mod32, sub32, avcSps320Info]
  simp [avcSps320]

/-- First span of `avcTwoSpsBuf`: the 640×480 SPS is stored. -/
theorem avcTwoSpsStep1 : avcAnnexbStep avcTwoSpsBuf
    { sps := none, pps := none, nal_units := [] } (4, 8) =
    { sps := some avcSps640Info, pps := none, nal_units := [avcSpsHeader] } := by
  have hg4 : avcTwoSpsBuf.getD 4 0 = 103 := rfl
  have hh : parse_avc_nal_unit_header 103 = avcSpsHeader := by decide
  have hs1 : sliceOf avcTwoSpsBuf 4 8 = avcSps640 := rfl
  unfold avcAnnexbStep
  rw [if_neg (by decide)]
  dsimp only
  rw [hg4, hh, hs1, if_pos (by decide), a640_parse]
  simp

/-- Second span of `avcTwoSpsBuf`: the 320×240 SPS overwrites the
already-stored 640×480 one. -/
theorem avcTwoSpsStep2 : avcAnnexbStep avcTwoSpsBuf
    { sps := some avcSps640Info, pps := none, nal_units := [avcSpsHeader] } (16, 8) =
    { sps := some avcSps320Info, pps := none
      nal_units := [avcSpsHeader, avcSpsHeader] } := by
  have hg : avcTwoSpsBuf.getD 16 0 = 103 := rfl
  have hh : parse_avc_nal_unit_header 103 = avcSpsHeader := by decide
  have hs : sliceOf avcTwoSpsBuf 16 8 = avcSps320 := rfl
  unfold avcAnnexbStep
  rw [if_neg (by decide)]
  dsimp only
  rw [hg, hh, hs, if_pos (by decide), a320_parse]
  simp

/-- Aggregating `avcTwoSpsBuf`: the result holds the second SPS. -/
theorem avcTwoSps_parse : parse_avc_annexb avcTwoSpsBuf =
    .ok { sps := some avcSps320Info, pps := none
          nal_units := [avcSpsHeader, avcSpsHeader] } := by
  have hscan : find_annexb_nal_units avcTwoSpsBuf = [(4, 8), (16, 8)] := rfl
  unfold parse_avc_annexb
  rw [if_neg (by decide), hscan]
  simp only [List.foldl_cons, List.foldl_nil]
  rw [avcTwoSpsStep1, avcTwoSpsStep2]

/-- C1 (counterexample): an Annex-B buffer holding two decodable SPS NAL
units; both decode successfully (the first to a 640×480 record), yet the
aggregate result holds the second (320×240) record, not the first. -/
theorem avc_annexb_first_wins_cex :
    parse_avc_annexb avcTwoSpsBuf =
      .ok { sps := some avcSps320Info, pps := none
            nal_units := [avcSpsHeader, avcSpsHeader] } ∧
    parse_avc_sps (sliceOf avcTwoSpsBuf 4 8) = .ok avcSps640Info ∧
    avcSps640Info ≠ avcSps320Info :=
  ⟨avcTwoSps_parse, a640_parse, by decide⟩

/-- C1 (amended): in the Annex-B aggregators the most recent
successfully decoded parameter set wins — the per-span step stores a
successful decode unconditionally, overwriting any earlier one — so the
buffer above ends with the second SPS stored. -/
theorem avc_annexb_sps_last_wins :
    (∀ (d : List Nat) (info : AVCAnnexBInfo) (o l : Nat) (s : AVCSpsInfo),
      l ≠ 0 → (parse_avc_nal_unit_header (d.getD o 0)).nal_unit_type = 7 →
      parse_avc_sps (sliceOf d o l) = .ok s →
      (avcAnnexbStep d info (o, l)).sps = some s) ∧
    (∀ (d : List Nat) (info : HEVCAnnexBInfo) (o l : Nat) (s : HEVCSpsInfo),
      2 ≤ l →
      (parse_hevc_nal_unit_header (d.getD o 0) (d.getD (o + 1) 0)).nal_unit_type = 33 →
      parse_hevc_sps (sliceOf d o l) = .ok s →
      (hevcAnnexbStep d info (o, l)).sps = some s) ∧
    parse_avc_annexb avcTwoSpsBuf =
      .ok { sps := some avcSps320Info, pps := none
            nal_units := [avcSpsHeader, avcSpsHeader] } := by
  refine ⟨?_, ?_, avcTwoSps_parse⟩
  · intro d info o l s hl hty hp
    unfold avcAnnexbStep
    rw [if_neg (by simpa using hl)]
    rw [if_pos (by simpa using hty)]
    simp only [hp]
  · intro d info o l s hl hty hp
    unfold hevcAnnexbStep
    rw [if_neg (by simp; omega)]
    rw [if_neg (by simp only at hty ⊢; omega)]
    rw [if_pos (by simpa using hty)]
    simp only [hp]

theorem avc_annexb_sps_last_wins_witness :
    (avcAnnexbStep avcTwoSpsBuf { sps := none, pps := none, nal_units := [] }
      (4, 8)).sps = some avcSps640Info :=
  avc_annexb_sps_last_wins.1 avcTwoSpsBuf _ 4 8 avcSps640Info (by decide)
    (by decide) a640_parse

theorem eBind_eq_ok {x : Except Err α} {f : α → Except Err β} {b : β} :
    (x >>= f) = .ok b ↔ ∃ a, x = .ok a ∧ f a = .ok b := by
  cases x with
  | ok a => simp [eBind_ok]
  | error e => simp [eBind_err]

/-- The literal byte lists match their documented bit layouts. -/
theorem concrete_sps_bit_layouts :
    packBits avcSps640Bits = avcSps640 ∧ packBits avcSps320Bits = avcSps320 ∧
    packBits avcWrapSpsBits = avcWrapSps ∧ packBits hevcWrapSpsBits = hevcWrapSps :=
  ⟨rfl, rfl, rfl, rfl⟩

theorem mod32_idem (a : Nat) : mod32 (mod32 a) = mod32 a := by
  unfold mod32
  exact Nat.mod_mod_of_dvd a dvd_rfl

theorem sub32_mod_left (a b : Nat) : sub32 (mod32 a) b = sub32 a b := by
  unfold sub32 mod32
  rw [Nat.mod_add_mod]

theorem sub32_mod_right (a b : Nat) : sub32 a (mod32 b) = sub32 a b := by
  unfold sub32 mod32
  rw [Nat.mod_mod_of_dvd b dvd_rfl]

theorem mod32_mul_left (a b : Nat) : mod32 (mod32 a * b) = mod32 (a * b) := by
  unfold mod32
  exact Nat.mod_mul_mod

theorem sub32_mul_mod_left (a b c : Nat) : sub32 (mod32 a * b) c = sub32 (a * b) c := by
  rw [← sub32_mod_left (mod32 a * b), mod32_mul_left, sub32_mod_left]

theorem sub32_mul_mod_right (a b c : Nat) : sub32 a (mod32 b * c) = sub32 a (b * c) := by
  rw [← sub32_mod_right a (mod32 b * c), mod32_mul_left, sub32_mod_right]

/-- When `frame_cropping_flag` is clear the geometry section leaves all
four crop offsets at zero. -/
theorem geom_crops_zero : ∀ {r r2 : BitstreamReader} {g : AVCSpsGeom},
    parse_avc_sps_geometry r = .ok (g, r2) → g.frame_cropping_flag = false →
    g.crop_left = 0 ∧ g.crop_right = 0 ∧ g.crop_top = 0 ∧ g.crop_bottom = 0 := by
  intro r r2 g h hf
  unfold parse_avc_sps_geometry at h
  simp only [eBind_eq_ok, ePure, Except.ok.injEq] at h
  obtain ⟨⟨pw, ra⟩, h1, h⟩ := h
  obtain ⟨⟨ph, rb⟩, h2, h⟩ := h
  obtain ⟨⟨fm, rc⟩, h3, h⟩ := h
  split at h <;>
    simp only [eBind_eq_ok, ePure, Except.ok.injEq, exists_eq_left'] at h
  · obtain ⟨rd, h4, h⟩ := h
    obtain ⟨re1, h5, h⟩ := h
    obtain ⟨⟨cb, rf⟩, h6, h⟩ := h
    obtain ⟨⟨crops, rg⟩, h7, h8⟩ := h
    rw [Prod.mk.injEq] at h8
    obtain ⟨h8a, -⟩ := h8
    subst h8a
    simp only [decide_eq_false_iff_not] at hf
    rw [if_neg (by simpa using hf)] at h7
    simp only [Except.ok.injEq, Prod.mk.injEq] at h7
    obtain ⟨hc, -⟩ := h7
    simp [← hc]
  · obtain ⟨rd, h4, h⟩ := h
    obtain ⟨⟨cb, rf⟩, h6, h⟩ := h
    obtain ⟨⟨crops, rg⟩, h7, h8⟩ := h
    rw [Prod.mk.injEq] at h8
    obtain ⟨h8a, -⟩ := h8
    subst h8a
    simp only [decide_eq_false_iff_not] at hf
    rw [if_neg (by simpa using hf)] at h7
    simp only [Except.ok.injEq, Prod.mk.injEq] at h7
    obtain ⟨hc, -⟩ := h7
    simp [← hc]

/-- Head section of the over-cropped AVC SPS. -/
theorem awrp_head : parse_avc_sps_head (mkReader avcWrapSps) =
    .ok (⟨66, 192, 30, 0, 1, 8, 8⟩, ⟨avcWrapSps, 4, 7⟩) := by
  have s1 : skip_bits 8 (mkReader avcWrapSps) = .ok ⟨avcWrapSps, 1, 0⟩ := rfl
  have s2 : read_bits 8 ⟨avcWrapSps, 1, 0⟩ = .ok (66, ⟨avcWrapSps, 2, 0⟩) := rfl
  have s3 : read_bits 8 ⟨avcWrapSps, 2, 0⟩ = .ok (192, ⟨avcWrapSps, 3, 0⟩) := rfl
  have s4 : read_bits 8 ⟨avcWrapSps, 3, 0⟩ = .ok (30, ⟨avcWrapSps, 4, 0⟩) := rfl
  have s5 : read_ue ⟨avcWrapSps, 4, 0⟩ = .ok (0, ⟨avcWrapSps, 4, 1⟩) := rfl
  have s6 : read_ue ⟨avcWrapSps, 4, 1⟩ = .ok (0, ⟨avcWrapSps, 4, 2⟩) := rfl
  have s7 : read_ue ⟨avcWrapSps, 4, 2⟩ = .ok (2, ⟨avcWrapSps, 4, 5⟩) := rfl
  have s8 : read_ue ⟨avcWrapSps, 4, 5⟩ = .ok (0, ⟨avcWrapSps, 4, 6⟩) := rfl
  have s9 : skip_bits 1 ⟨avcWrapSps, 4, 6⟩ = .ok ⟨avcWrapSps, 4, 7⟩ := rfl
  simp [parse_avc_sps_head, s1, s2, s3, s4, s5, s6, s7, s8, s9, eBind_ok, ePure,
    isHighProfile]

/-- Geometry section of the over-cropped AVC SPS: 16 luma samples wide
with `frame_crop_left_offset = 9`. -/
theorem awrp_geom : parse_avc_sps_geometry ⟨avcWrapSps, 4, 7⟩ =
    .ok (⟨0, 0, true, true, 9, 0, 0, 0⟩, ⟨avcWrapSps, 6, 6⟩) := by
  have s1 : read_ue ⟨avcWrapSps, 4, 7⟩ = .ok (0, ⟨avcWrapSps, 5, 0⟩) := rfl
  have s2 : read_ue ⟨avcWrapSps, 5, 0⟩ = .ok (0, ⟨avcWrapSps, 5, 1⟩) := rfl
  have s3 : read_bit ⟨avcWrapSps, 5, 1⟩ = .ok (1, ⟨avcWrapSps, 5, 2⟩) := rfl
  have s4 : skip_bits 1 ⟨avcWrapSps, 5, 2⟩ = .ok ⟨avcWrapSps, 5, 3⟩ := rfl
  have s5 : read_bit ⟨avcWrapSps, 5, 3⟩ = .ok (1, ⟨avcWrapSps, 5, 4⟩) := rfl
  have s6 : read_ue ⟨avcWrapSps, 5, 4⟩ = .ok (9, ⟨avcWrapSps, 6, 3⟩) := rfl
  have s7 : read_ue ⟨avcWrapSps, 6, 3⟩ = .ok (0, ⟨avcWrapSps, 6, 4⟩) := rfl
  have s8 : read_ue ⟨avcWrapSps, 6, 4⟩ = .ok (0, ⟨avcWrapSps, 6, 5⟩) := rfl
  have s9 : read_ue ⟨avcWrapSps, 6, 5⟩ = .ok (0, ⟨avcWrapSps, 6, 6⟩) := rfl
  simp [parse_avc_sps_geometry, s1, s2, s3, s4, s5, s6, s7, s8, s9, eBind_ok, ePure]

/-- VUI section of the over-cropped AVC SPS (flag clear). -/
theorem awrp_vui : parse_avc_sps_vui ⟨avcWrapSps, 6, 6⟩ = .ok (none, ⟨avcWrapSps, 6, 7⟩) := by
  have s1 : read_bit ⟨avcWrapSps, 6, 6⟩ = .ok (0, ⟨avcWrapSps, 6, 7⟩) := rfl
  simp [parse_avc_sps_vui, s1, eBind_ok, ePure]

/-- The over-cropped AVC SPS decodes without error, with the width
wrapped to `2^32 - 2`. -/
theorem awrp_parse : parse_avc_sps avcWrapSps = .ok avcWrapSpsInfo := by
  have hrb : remove_emulation_prevention_bytes avcWrapSps = avcWrapSps := rfl
  simp [parse_avc_sps, hrb, awrp_head, awrp_geom, awrp_vui, eBind_ok, ePure,
    avc_dimensions, mod32, sub32, avcWrapSpsInfo]
  simp [avcWrapSps]

set_option maxRecDepth 10000 in
/-- Profile/tier/level of the over-cropped HEVC SPS. -/
theorem hwrp_ptl : parse_hevc_profile_tier_level true 0 0 0 ⟨hevcWrapSps, 3, 0⟩ =
    .ok ((0, 1, 90), ⟨hevcWrapSps, 15, 0⟩) := by
  have s1 : skip_bits 2 (⟨hevcWrapSps, 3, 0⟩ : BitstreamReader) = .ok ⟨hevcWrapSps, 3, 2⟩ := rfl
  have s2 : read_bit ⟨hevcWrapSps, 3, 2⟩ = .ok (0, ⟨hevcWrapSps, 3, 3⟩) := rfl
  have s3 : read_bits 5 ⟨hevcWrapSps, 3, 3⟩ = .ok (1, ⟨hevcWrapSps, 4, 0⟩) := rfl
  have s4 : skip_bits 32 (⟨hevcWrapSps, 4, 0⟩ : BitstreamReader) = .ok ⟨hevcWrapSps, 8, 0⟩ := rfl
  have s5 : skip_bits 48 (⟨hevcWrapSps, 8, 0⟩ : BitstreamReader) = .ok ⟨hevcWrapSps, 14, 0⟩ := rfl
  have s6 : read_bits 8 ⟨hevcWrapSps, 14, 0⟩ = .ok (90, ⟨hevcWrapSps, 15, 0⟩) := rfl
  have s7 : ptl_sublayers 0 ⟨hevcWrapSps, 15, 0⟩ = .ok ⟨hevcWrapSps, 15, 0⟩ := rfl
  simp [parse_hevc_profile_tier_level, s1, s2, s3, s4, s5, s6, s7, eBind_ok, ePure]

/-- The over-cropped HEVC SPS decodes without error, with the width
wrapped to `2^32 - 2`. -/
theorem hwrp_parse : parse_hevc_sps hevcWrapSps = .ok hevcWrapSpsInfo := by
  have hrb : remove_emulation_prevention_bytes hevcWrapSps = hevcWrapSps := rfl
  have s1 : skip_bits 16 (mkReader hevcWrapSps) = .ok ⟨hevcWrapSps, 2, 0⟩ := rfl
  have s2 : read_bits 4 ⟨hevcWrapSps, 2, 0⟩ = .ok (0, ⟨hevcWrapSps, 2, 4⟩) := rfl
  have s3 : read_bits 3 ⟨hevcWrapSps, 2, 4⟩ = .ok (0, ⟨hevcWrapSps, 2, 7⟩) := rfl
  have s4 : skip_bits 1 (⟨hevcWrapSps, 2, 7⟩ : BitstreamReader) = .ok ⟨hevcWrapSps, 3, 0⟩ := rfl
  have s5 : read_ue ⟨hevcWrapSps, 15, 0⟩ = .ok (0, ⟨hevcWrapSps, 15, 1⟩) := rfl
  have s6 : read_ue ⟨hevcWrapSps, 15, 1⟩ = .ok (1, ⟨hevcWrapSps, 15, 4⟩) := rfl
  have s7 : read_ue ⟨hevcWrapSps, 15, 4⟩ = .ok (16, ⟨hevcWrapSps, 16, 5⟩) := rfl
  have s8 : read_ue ⟨hevcWrapSps, 16, 5⟩ = .ok (16, ⟨hevcWrapSps, 17, 6⟩) := rfl
  have s9 : read_bit ⟨hevcWrapSps, 17, 6⟩ = .ok (1, ⟨hevcWrapSps, 17, 7⟩) := rfl
  have sa : read_ue ⟨hevcWrapSps, 17, 7⟩ = .ok (9, ⟨hevcWrapSps, 18, 6⟩) := rfl
  have sb : read_ue ⟨hevcWrapSps, 18, 6⟩ = .ok (0, ⟨hevcWrapSps, 18, 7⟩) := rfl
  have sc : read_ue ⟨hevcWrapSps, 18, 7⟩ = .ok (0, ⟨hevcWrapSps, 19, 0⟩) := rfl
  have sd : read_ue ⟨hevcWrapSps, 19, 0⟩ = .ok (0, ⟨hevcWrapSps, 19, 1⟩) := rfl
  have se : read_ue ⟨hevcWrapSps, 19, 1⟩ = .ok (0, ⟨hevcWrapSps, 19, 2⟩) := rfl
  have sf : read_ue ⟨hevcWrapSps, 19, 2⟩ = .ok (0, ⟨hevcWrapSps, 19, 3⟩) := rfl
  simp [parse_hevc_sps, hrb, s1, s2, s3, s4, hwrp_ptl, s5, s6, s7, s8, s9, sa, sb, sc,
    sd, se, sf, eBind_ok, ePure, mod32, sub32, hevcWrapSpsInfo]
  simp [hevcWrapSps]

/-- C9 (confirmed): both `parse_avc_sps` and `parse_hevc_sps` apply the
crop subtraction in wrapping `uint32_t` arithmetic with no range check:
each of the two syntactically valid SPS inputs here crops more samples
than the picture holds, decodes without error, and yields a width of
`2^32 - 2` instead of a parse failure. -/
theorem sps_crop_underflow_wraps :
    parse_avc_sps avcWrapSps = .ok avcWrapSpsInfo ∧
    avcWrapSpsInfo.width = 4294967294 ∧ 2 ^ 31 < avcWrapSpsInfo.width ∧
    parse_hevc_sps hevcWrapSps = .ok hevcWrapSpsInfo ∧
    hevcWrapSpsInfo.width = 4294967294 ∧ 2 ^ 31 < hevcWrapSpsInfo.width :=
  ⟨awrp_parse, rfl, by norm_num [avcWrapSpsInfo], hwrp_parse, rfl,
   by norm_num [hevcWrapSpsInfo]⟩

/-- C2 (counterexample): a successfully decoded SPS whose returned width
(`2^32 - 2`) differs from the claim's formula value
`(0+1)*16 - (9+0)*2 = -2` (exact integer arithmetic; 0 under truncated
natural subtraction). -/
theorem avc_sps_resolution_exact_formula_cex :
    parse_avc_sps avcWrapSps = .ok avcWrapSpsInfo ∧
    avcWrapSpsInfo.width = 4294967294 ∧
    ¬((avcWrapSpsInfo.width : Int) = ((0 + 1) * 16 : Int) - ((9 + 0) * 2 : Int)) ∧
    avcWrapSpsInfo.width ≠ (0 + 1) * 16 - (9 + 0) * 2 :=
  ⟨awrp_parse, rfl, by norm_num [avcWrapSpsInfo], by norm_num [avcWrapSpsInfo]⟩

/-- C2 (amended): every successful `parse_avc_sps` factors through the
head and geometry phases, and the returned width and height equal the
claimed formulas — `(pw+1)*16 - (crop_l+crop_r)*crop_unit_x` and
`(ph+1)*16*(fmo?1:2) - (crop_t+crop_b)*crop_unit_y` with the claimed
`sub_width_c`/`sub_height_c` table — evaluated in wrapping `uint32_t`
arithmetic (`sub32`), for chroma_format_idc 0–3; crop offsets are 0
whenever `frame_cropping_flag` is clear; and the Baseline 640×480 SPS
decodes to profile 66, width 640, height 480, chroma 1, bit depth 8. -/
theorem avc_sps_resolution_formula :
    (∀ (data : List Nat) (sps : AVCSpsInfo),
      parse_avc_sps data = .ok sps →
      ∃ (hd : AVCSpsHead) (g : AVCSpsGeom) (r1 r2 : BitstreamReader),
        parse_avc_sps_head (mkReader (remove_emulation_prevention_bytes data)) = .ok (hd, r1) ∧
        parse_avc_sps_geometry r1 = .ok (g, r2) ∧
        sps.chroma_format_idc = hd.chroma_format_idc ∧
        sps.width = (avc_dimensions hd.chroma_format_idc g).1 ∧
        sps.height = (avc_dimensions hd.chroma_format_idc g).2 ∧
        (g.frame_cropping_flag = false →
          g.crop_left = 0 ∧ g.crop_right = 0 ∧ g.crop_top = 0 ∧ g.crop_bottom = 0)) ∧
    (∀ (idc : Nat) (g : AVCSpsGeom), idc ≤ 3 →
      (avc_dimensions idc g).1 =
        sub32 ((g.pic_width_in_mbs_minus1 + 1) * 16)
          ((g.crop_left + g.crop_right) * claimSubWidthC idc) ∧
      (avc_dimensions idc g).2 =
        sub32 ((g.pic_height_in_map_units_minus1 + 1) * 16 *
            (if g.frame_mbs_only_flag then 1 else 2))
          ((g.crop_top + g.crop_bottom) * claimCropUnitY idc g.frame_mbs_only_flag)) ∧
    parse_avc_sps avcSps640 = .ok avcSps640Info := by
  refine ⟨?_, ?_, a640_parse⟩
  · intro data sps h
    unfold parse_avc_sps at h
    split at h
    · cases h
    · simp only [eBind_eq_ok, ePure, Except.ok.injEq] at h
      obtain ⟨⟨hd, r1⟩, h1, h⟩ := h
      obtain ⟨⟨g, r2⟩, h2, h⟩ := h
      obtain ⟨⟨fr, r3⟩, h3, h4⟩ := h
      refine ⟨hd, g, r1, r2, h1, h2, ?_, ?_, ?_, fun hcf => geom_crops_zero h2 hcf⟩ <;>
        rw [← h4]
  · intro idc g hidc
    cases hfm : g.frame_mbs_only_flag <;> interval_cases idc <;>
      constructor <;>
        simp [avc_dimensions, claimSubWidthC, claimSubHeightC, claimCropUnitY, hfm,
          sub32_mod_left, sub32_mod_right, mod32_mul_left, mod32_idem,
          sub32_mul_mod_left, sub32_mul_mod_right]

theorem avc_sps_resolution_formula_witness :
    (∃ (hd : AVCSpsHead) (g : AVCSpsGeom) (r1 r2 : BitstreamReader),
      parse_avc_sps_head (mkReader (remove_emulation_prevention_bytes avcSps640)) = .ok (hd, r1) ∧
      parse_avc_sps_geometry r1 = .ok (g, r2) ∧
      avcSps640Info.chroma_format_idc = hd.chroma_format_idc ∧
      avcSps640Info.width = (avc_dimensions hd.chroma_format_idc g).1 ∧
      avcSps640Info.height = (avc_dimensions hd.chroma_format_idc g).2 ∧
      (g.frame_cropping_flag = false →
        g.crop_left = 0 ∧ g.crop_right = 0 ∧ g.crop_top = 0 ∧ g.crop_bottom = 0)) ∧
    (avc_dimensions 1 ⟨39, 29, true, false, 0, 0, 0, 0⟩).1 =
      sub32 ((39 + 1) * 16) ((0 + 0) * claimSubWidthC 1) :=
  ⟨avc_sps_resolution_formula.1 avcSps640 avcSps640Info a640_parse,
   (avc_sps_resolution_formula.2.1 1 ⟨39, 29, true, false, 0, 0, 0, 0⟩ (by decide)).1⟩

/-- `parse_avc_codec_string` on a string of length at least 11, reduced
to its prefix/dot checks and the three `stoi16` group conversions. -/
theorem parse_avc_codec_string_shape (c0 c1 c2 c3 c4 c5 c6 c7 c8 c9 c10 : Char)
    (rest : List Char) :
    parse_avc_codec_string
        (c0 :: c1 :: c2 :: c3 :: c4 :: c5 :: c6 :: c7 :: c8 :: c9 :: c10 :: rest) =
      (if ¬([c0, c1, c2, c3] = "avc1".toList ∨ [c0, c1, c2, c3] = "avc3".toList) then
        .error .syntaxError
      else if ¬(c4 = '.') then .error .syntaxError
      else
        match stoi16 c5 c6, stoi16 c7 c8, stoi16 c9 c10 with
        | some v1, some v2, some v3 =>
          .ok ⟨[c0, c1, c2, c3], (v1.emod 256).toNat, (v2.emod 256).toNat,
            (v3.emod 256).toNat⟩
        | _, _, _ => .error .syntaxError) := by
  unfold parse_avc_codec_string hex_to_uint8
  rw [if_neg (by simp)]
  simp only [List.take_succ_cons, List.take_zero, List.drop_succ_cons, List.drop_zero,
    List.getD_cons_succ, List.getD_cons_zero, List.length_cons, List.length_nil,
    Nat.reduceAdd, ne_eq]
  split_ifs with h1 h2 h3 <;>
    first
      | rfl
      | (exact absurd trivial h3)
      | (cases h5 : stoi16 c5 c6 <;> cases h7 : stoi16 c7 c8 <;> cases h9 : stoi16 c9 c10 <;>
          simp [h5, h7, h9, eBind_ok, eBind_err, ePure])

set_option linter.unreachableTactic false in
set_option linter.unusedTactic false in
/-- A list of length at least 11 exposes its first eleven elements. -/
theorem list_long_shape {s : List Char} (h : 11 ≤ s.length) :
    ∃ a0 a1 a2 a3 a4 a5 a6 a7 a8 a9 a10 t,
      s = a0::a1::a2::a3::a4::a5::a6::a7::a8::a9::a10::t := by
  rcases s with _|⟨a0,_|⟨a1,_|⟨a2,_|⟨a3,_|⟨a4,_|⟨a5,_|⟨a6,_|⟨a7,_|⟨a8,_|⟨a9,_|⟨a10,t⟩⟩⟩⟩⟩⟩⟩⟩⟩⟩⟩ <;>
    first
      | (exact ⟨_,_,_,_,_,_,_,_,_,_,_,_,rfl⟩)
      | (exfalso; simp at h)
      | (exfalso; simp at h; omega)

/-- Exact success condition of `parse_avc_codec_string`. -/
theorem parse_avc_codec_string_success_iff : ∀ s : List Char,
    (∃ p, parse_avc_codec_string s = .ok p) ↔
      (11 ≤ s.length ∧
        (s.take 4 = "avc1".toList ∨ s.take 4 = "avc3".toList) ∧
        s.getD 4 ' ' = '.' ∧
        (stoi16 (s.getD 5 ' ') (s.getD 6 ' ')).isSome ∧
        (stoi16 (s.getD 7 ' ') (s.getD 8 ' ')).isSome ∧
        (stoi16 (s.getD 9 ' ') (s.getD 10 ' ')).isSome) := by
  intro s
  by_cases hlen : s.length < 11
  · constructor
    · rintro ⟨p, hp⟩
      unfold parse_avc_codec_string at hp
      rw [if_pos hlen] at hp
      cases hp
    · rintro ⟨h11, -⟩
      omega
  · push_neg at hlen
    obtain ⟨a0, a1, a2, a3, a4, a5, a6, a7, a8, a9, a10, t, rfl⟩ := list_long_shape hlen
    rw [parse_avc_codec_string_shape]
    simp only [List.take_succ_cons, List.take_zero, List.getD_cons_succ, List.getD_cons_zero,
      List.length_cons]
    constructor
    · rintro ⟨p, hp⟩
      by_cases h1 : ([a0, a1, a2, a3] = "avc1".toList ∨ [a0, a1, a2, a3] = "avc3".toList)
      · rw [if_neg (not_not_intro h1)] at hp
        by_cases h2 : a4 = '.'
        · rw [if_neg (not_not_intro h2)] at hp
          cases h5 : stoi16 a5 a6 <;> cases h7 : stoi16 a7 a8 <;> cases h9 : stoi16 a9 a10 <;>
            rw [h5, h7, h9] at hp <;> dsimp only at hp <;> try cases hp
          refine ⟨by omega, h1, h2, ?_, ?_, ?_⟩ <;> simp [h5, h7, h9]
        · rw [if_pos h2] at hp
          cases hp
      · rw [if_pos h1] at hp
        cases hp
    · rintro ⟨-, hpfx, hdot, hs5, hs6, hs7⟩
      rw [if_neg (not_not_intro hpfx), if_neg (not_not_intro hdot)]
      obtain ⟨v1, h5⟩ := Option.isSome_iff_exists.mp hs5
      obtain ⟨v2, h7⟩ := Option.isSome_iff_exists.mp hs6
      obtain ⟨v3, h9⟩ := Option.isSome_iff_exists.mp hs7
      rw [h5, h7, h9]
      exact ⟨_, rfl⟩

/-- Field values of a successful `parse_avc_codec_string`. -/
theorem parse_avc_codec_string_fields : ∀ (s : List Char) (p : AVCCodecParameters),
    parse_avc_codec_string s = .ok p →
    p.pfx = s.take 4 ∧
    (stoi16 (s.getD 5 ' ') (s.getD 6 ' ')).map (fun v => (v.emod 256).toNat) =
      some p.profile_idc ∧
    (stoi16 (s.getD 7 ' ') (s.getD 8 ' ')).map (fun v => (v.emod 256).toNat) =
      some p.constraint_set_flags ∧
    (stoi16 (s.getD 9 ' ') (s.getD 10 ' ')).map (fun v => (v.emod 256).toNat) =
      some p.level_idc := by
  intro s p hp
  by_cases hlen : s.length < 11
  · unfold parse_avc_codec_string at hp
    rw [if_pos hlen] at hp
    cases hp
  · push_neg at hlen
    obtain ⟨a0, a1, a2, a3, a4, a5, a6, a7, a8, a9, a10, t, rfl⟩ := list_long_shape hlen
    rw [parse_avc_codec_string_shape] at hp
    simp only [List.take_succ_cons, List.take_zero, List.getD_cons_succ, List.getD_cons_zero]
    by_cases h1 : ([a0, a1, a2, a3] = "avc1".toList ∨ [a0, a1, a2, a3] = "avc3".toList)
    · rw [if_neg (not_not_intro h1)] at hp
      by_cases h2 : a4 = '.'
      · rw [if_neg (not_not_intro h2)] at hp
        cases h5 : stoi16 a5 a6 <;> cases h7 : stoi16 a7 a8 <;> cases h9 : stoi16 a9 a10 <;>
          rw [h5, h7, h9] at hp <;> dsimp only at hp <;> try cases hp
        refine ⟨rfl, ?_, ?_, ?_⟩ <;> simp [h5, h7, h9]
      · rw [if_pos h2] at hp
        cases hp
    · rw [if_pos h1] at hp
      cases hp

/-- C5 (counterexample): a 12-character string with a valid first 11
characters parses successfully (extra characters are ignored, so length
11 is not required), and a group whose second character is not a hex
digit also parses (`std::stoi` stops at the first non-digit), so
"exactly 6 hex digits" is not enforced either. -/
theorem avc_codec_string_length_cex :
    parse_avc_codec_string "avc1.42E01E0".toList =
      .ok ⟨"avc1".toList, 66, 224, 30⟩ ∧
    ("avc1.42E01E0".toList).length = 12 ∧
    parse_avc_codec_string "avc1.4ZE01E".toList =
      .ok ⟨"avc1".toList, 4, 224, 30⟩ ∧
    hexVal 'Z' = none :=
  ⟨rfl, rfl, rfl, rfl⟩

/-- C5 (amended): `parse_avc_codec_string` succeeds exactly when the
string has length at least 11, starts with "avc1" or "avc3", has a dot
at index 4, and each of the three 2-character groups at indices 5–10
converts under `std::stoi` base-16 semantics (optional leading
whitespace or sign, then at least one leading hex digit; a trailing
non-digit is ignored); characters beyond index 10 are ignored; the three
fields are the group values narrowed to 8 bits; and "avc1.42E01E" yields
profile 0x42, constraint flags 0xE0, level 0x1E. -/
theorem avc_codec_string_charact :
    (∀ s : List Char,
      (∃ p, parse_avc_codec_string s = .ok p) ↔
        (11 ≤ s.length ∧
          (s.take 4 = "avc1".toList ∨ s.take 4 = "avc3".toList) ∧
          s.getD 4 ' ' = '.' ∧
          (stoi16 (s.getD 5 ' ') (s.getD 6 ' ')).isSome ∧
          (stoi16 (s.getD 7 ' ') (s.getD 8 ' ')).isSome ∧
          (stoi16 (s.getD 9 ' ') (s.getD 10 ' ')).isSome)) ∧
    (∀ (s : List Char) (p : AVCCodecParameters),
      parse_avc_codec_string s = .ok p →
      p.pfx = s.take 4 ∧
      (stoi16 (s.getD 5 ' ') (s.getD 6 ' ')).map (fun v => (v.emod 256).toNat) =
        some p.profile_idc ∧
      (stoi16 (s.getD 7 ' ') (s.getD 8 ' ')).map (fun v => (v.emod 256).toNat) =
        some p.constraint_set_flags ∧
      (stoi16 (s.getD 9 ' ') (s.getD 10 ' ')).map (fun v => (v.emod 256).toNat) =
        some p.level_idc) ∧
    parse_avc_codec_string "avc1.42E01E".toList = .ok ⟨"avc1".toList, 0x42, 0xE0, 0x1E⟩ :=
  ⟨parse_avc_codec_string_success_iff, parse_avc_codec_string_fields, rfl⟩

theorem avc_codec_string_charact_witness :
    ∃ p, parse_avc_codec_string "avc3.123456".toList = .ok p :=
  (avc_codec_string_charact.1 "avc3.123456".toList).mpr (by decide)

theorem read_bit_atBit (d : List Nat) (n : Nat) (h : n < 8 * d.length) :
    read_bit (atBit d n) = .ok (nthBit d n, atBit d (n + 1)) := by
  unfold read_bit atBit nthBit
  rw [if_neg (by simp only []; omega)]
  dsimp only
  split <;> rename_i hbit
  · have h1 : (n + 1) / 8 = n / 8 + 1 := by omega
    have h2 : (n + 1) % 8 = 0 := by omega
    rw [h1, h2]
  · have h1 : (n + 1) / 8 = n / 8 := by omega
    have h2 : (n + 1) % 8 = n % 8 + 1 := by omega
    rw [h1, h2]

theorem readBitsAux_atBit (d : List Nat) : ∀ (n acc p : Nat), p + n ≤ 8 * d.length →
    readBitsAux n acc (atBit d p) = .ok (acc * 2 ^ n + bitsVal d p n, atBit d (p + n)) := by
  intro n
  induction n with
  | zero =>
    intro acc p h
    simp [readBitsAux, bitsVal]
  | succ n ih =>
    intro acc p h
    unfold readBitsAux
    rw [read_bit_atBit d p (by omega), eBind_ok]
    dsimp only
    rw [ih (acc * 2 + nthBit d p) (p + 1) (by omega)]
    have harith : (acc * 2 + nthBit d p) * 2 ^ n + bitsVal d (p + 1) n =
        acc * 2 ^ (n + 1) + (nthBit d p * 2 ^ n + bitsVal d (p + 1) n) := by ring
    rw [harith]
    have hpn : p + 1 + n = p + (n + 1) := by omega
    rw [hpn]
    rfl

theorem read_bits_atBit (d : List Nat) (n p : Nat) (hn : n ≤ 32)
    (h : p + n ≤ 8 * d.length) :
    read_bits n (atBit d p) = .ok (bitsVal d p n, atBit d (p + n)) := by
  unfold read_bits
  rw [if_neg (by omega), readBitsAux_atBit d n 0 p h]
  simp

theorem ueCount_spec (d : List Nat) : ∀ (k budget p : Nat), k ≤ budget →
    (∀ j, j < k → nthBit d (p + j) = 0) → nthBit d (p + k) = 1 →
    p + k < 8 * d.length →
    ueCount budget (atBit d p) = .ok (k, atBit d (p + k + 1)) := by
  intro k
  induction k with
  | zero =>
    intro budget p _ _ h1 hlen
    unfold ueCount
    rw [read_bit_atBit d p (by omega), eBind_ok]
    dsimp only
    rw [show p + 0 = p from rfl] at h1
    rw [h1]
    norm_num
  | succ k ih =>
    intro budget p hb hz h1 hlen
    unfold ueCount
    rw [read_bit_atBit d p (by omega), eBind_ok]
    dsimp only
    have hz0 : nthBit d p = 0 := by simpa using hz 0 (by omega)
    rw [hz0]
    norm_num
    match budget, hb with
    | budget + 1, hb =>
      have hrec := ih budget (p + 1) (by omega)
        (fun j hj => by
          have hh := hz (j + 1) (by omega)
          have e : p + 1 + j = p + (j + 1) := by omega
          rw [e]
          exact hh)
        (by
          have e : p + 1 + k = p + (k + 1) := by omega
          rw [e]
          exact h1)
        (by omega)
      dsimp only
      rw [hrec, eBind_ok]
      dsimp only
      have e2 : p + 1 + k + 1 = p + (k + 1) + 1 := by omega
      rw [e2]

theorem ueCount_fail (d : List Nat) : ∀ (budget p : Nat),
    (∀ j, j ≤ budget → nthBit d (p + j) = 0) → p + budget < 8 * d.length →
    ueCount budget (atBit d p) = .error .codeTooLong := by
  intro budget
  induction budget with
  | zero =>
    intro p hz hlen
    unfold ueCount
    rw [read_bit_atBit d p (by omega), eBind_ok]
    dsimp only
    have hz0 : nthBit d p = 0 := by simpa using hz 0 (by omega)
    rw [hz0]
    rfl
  | succ budget ih =>
    intro p hz hlen
    unfold ueCount
    rw [read_bit_atBit d p (by omega), eBind_ok]
    dsimp only
    have hz0 : nthBit d p = 0 := by simpa using hz 0 (by omega)
    rw [hz0]
    norm_num
    rw [ih (p + 1) (fun j hj => by
        have hh := hz (j + 1) (by omega)
        have e : p + 1 + j = p + (j + 1) := by omega
        rw [e]
        exact hh) (by omega)]
    rfl

theorem natBits_length : ∀ (w x : Nat), (natBits w x).length = w
  | 0, _ => rfl
  | w + 1, x => by
    unfold natBits
    rw [List.length_append, natBits_length w]
    rfl

theorem natBits_le_one : ∀ (w x : Nat), ∀ b ∈ natBits w x, b ≤ 1
  | 0, _ => by intro b hb; simp [natBits] at hb
  | w + 1, x => by
    intro b hb
    unfold natBits at hb
    rw [List.mem_append] at hb
    rcases hb with hb | hb
    · exact natBits_le_one w (x >>> 1) b hb
    · simp at hb
      subst hb
      omega

theorem natBits_getD : ∀ (w x j : Nat), j < w →
    (natBits w x).getD j 0 = (x >>> (w - 1 - j)) &&& 1
  | 0, _, _, hj => absurd hj (by omega)
  | w + 1, x, j, hj => by
    unfold natBits
    by_cases hjw : j < w
    · rw [List.getD_append _ _ _ _ (by rw [natBits_length]; exact hjw)]
      rw [natBits_getD w (x >>> 1) j hjw,
        show x >>> 1 >>> (w - 1 - j) = x >>> (1 + (w - 1 - j)) from
          (Nat.shiftRight_add x 1 (w - 1 - j)).symm]
      congr 2
      omega
    · have hjw2 : j = w := by omega
      subst hjw2
      rw [List.getD_append_right _ _ _ _ (by rw [natBits_length])]
      rw [natBits_length]
      simp

theorem replicate_getD (k j : Nat) : (List.replicate k (0 : Nat)).getD j 0 = 0 := by
  rw [List.getD_eq_getElem?_getD, List.getElem?_replicate]
  split <;> rfl

theorem packBits_length_le : ∀ (bits : List Nat),
    bits.length ≤ 8 * (packBits bits).length
  | [] => by simp [packBits]
  | [_] => by simp [packBits]
  | [_, _] => by simp [packBits]
  | [_, _, _] => by simp [packBits]
  | [_, _, _, _] => by simp [packBits]
  | [_, _, _, _, _] => by simp [packBits]
  | [_, _, _, _, _, _] => by simp [packBits]
  | [_, _, _, _, _, _, _] => by simp [packBits]
  | b0 :: b1 :: b2 :: b3 :: b4 :: b5 :: b6 :: b7 :: rest => by
    have ih := packBits_length_le rest
    simp only [packBits, List.length_cons]
    omega

theorem byteOfBits_bit (b0 b1 b2 b3 b4 b5 b6 b7 : Nat)
    (h0 : b0 ≤ 1) (h1 : b1 ≤ 1) (h2 : b2 ≤ 1) (h3 : b3 ≤ 1)
    (h4 : b4 ≤ 1) (h5 : b5 ≤ 1) (h6 : b6 ≤ 1) (h7 : b7 ≤ 1)
    (n : Nat) (hn : n < 8) :
    (byteOfBits b0 b1 b2 b3 b4 b5 b6 b7 >>> (7 - n)) &&& 1 =
      [b0, b1, b2, b3, b4, b5, b6, b7].getD n 0 := by
  unfold byteOfBits
  interval_cases n <;>
    simp [Nat.shiftRight_eq_div_pow, Nat.and_one_is_mod, List.getD] <;>
    omega

theorem nthBit_head (B : Nat) (L : List Nat) (n : Nat) (hn : n < 8) :
    nthBit (B :: L) n = (B >>> (7 - n)) &&& 1 := by
  unfold nthBit
  have hd : n / 8 = 0 := by omega
  have hm : n % 8 = n := by omega
  rw [hd, hm]
  rfl

theorem nthBit_cons (B : Nat) (L : List Nat) (n : Nat) (h : 8 ≤ n) :
    nthBit (B :: L) n = nthBit L (n - 8) := by
  unfold nthBit
  have hd : n / 8 = (n - 8) / 8 + 1 := by omega
  have hm : n % 8 = (n - 8) % 8 := by omega
  rw [hd, hm]
  rfl

theorem nthBit_packBits : ∀ (bits : List Nat), (∀ b ∈ bits, b ≤ 1) →
    ∀ n, n < bits.length → nthBit (packBits bits) n = bits.getD n 0
  | [], _, n, hn => absurd hn (by simp)
  | [b0], hb, n, hn => by
    have hn8 : n < 8 := by simp at hn; omega
    rw [show packBits [b0] = [byteOfBits b0 0 0 0 0 0 0 0] from rfl,
      nthBit_head _ _ n hn8,
      byteOfBits_bit b0 0 0 0 0 0 0 0 (hb b0 (by simp)) (by omega) (by omega)
        (by omega) (by omega) (by omega) (by omega) (by omega) n hn8]
    simp at hn
    interval_cases n <;> rfl
  | [b0, b1], hb, n, hn => by
    have hn8 : n < 8 := by simp at hn; omega
    rw [show packBits [b0, b1] = [byteOfBits b0 b1 0 0 0 0 0 0] from rfl,
      nthBit_head _ _ n hn8,
      byteOfBits_bit b0 b1 0 0 0 0 0 0 (hb b0 (by simp)) (hb b1 (by simp))
        (by omega) (by omega) (by omega) (by omega) (by omega) (by omega) n hn8]
    simp at hn
    interval_cases n <;> rfl
  | [b0, b1, b2], hb, n, hn => by
    have hn8 : n < 8 := by simp at hn; omega
    rw [show packBits [b0, b1, b2] = [byteOfBits b0 b1 b2 0 0 0 0 0] from rfl,
      nthBit_head _ _ n hn8,
      byteOfBits_bit b0 b1 b2 0 0 0 0 0 (hb b0 (by simp)) (hb b1 (by simp))
        (hb b2 (by simp)) (by omega) (by omega) (by omega) (by omega) (by omega) n hn8]
    simp at hn
    interval_cases n <;> rfl
  | [b0, b1, b2, b3], hb, n, hn => by
    have hn8 : n < 8 := by simp at hn; omega
    rw [show packBits [b0, b1, b2, b3] = [byteOfBits b0 b1 b2 b3 0 0 0 0] from rfl,
      nthBit_head _ _ n hn8,
      byteOfBits_bit b0 b1 b2 b3 0 0 0 0 (hb b0 (by simp)) (hb b1 (by simp))
        (hb b2 (by simp)) (hb b3 (by simp)) (by omega) (by omega) (by omega)
        (by omega) n hn8]
    simp at hn
    interval_cases n <;> rfl
  | [b0, b1, b2, b3, b4], hb, n, hn => by
    have hn8 : n < 8 := by simp at hn; omega
    rw [show packBits [b0, b1, b2, b3, b4] = [byteOfBits b0 b1 b2 b3 b4 0 0 0] from rfl,
      nthBit_head _ _ n hn8,
      byteOfBits_bit b0 b1 b2 b3 b4 0 0 0 (hb b0 (by simp)) (hb b1 (by simp))
        (hb b2 (by simp)) (hb b3 (by simp)) (hb b4 (by simp)) (by omega)
        (by omega) (by omega) n hn8]
    simp at hn
    interval_cases n <;> rfl
  | [b0, b1, b2, b3, b4, b5], hb, n, hn => by
    have hn8 : n < 8 := by simp at hn; omega
    rw [show packBits [b0, b1, b2, b3, b4, b5] =
        [byteOfBits b0 b1 b2 b3 b4 b5 0 0] from rfl,
      nthBit_head _ _ n hn8,
      byteOfBits_bit b0 b1 b2 b3 b4 b5 0 0 (hb b0 (by simp)) (hb b1 (by simp))
        (hb b2 (by simp)) (hb b3 (by simp)) (hb b4 (by simp)) (hb b5 (by simp))
        (by omega) (by omega) n hn8]
    simp at hn
    interval_cases n <;> rfl
  | [b0, b1, b2, b3, b4, b5, b6], hb, n, hn => by
    have hn8 : n < 8 := by simp at hn; omega
    rw [show packBits [b0, b1, b2, b3, b4, b5, b6] =
        [byteOfBits b0 b1 b2 b3 b4 b5 b6 0] from rfl,
      nthBit_head _ _ n hn8,
      byteOfBits_bit b0 b1 b2 b3 b4 b5 b6 0 (hb b0 (by simp)) (hb b1 (by simp))
        (hb b2 (by simp)) (hb b3 (by simp)) (hb b4 (by simp)) (hb b5 (by simp))
        (hb b6 (by simp)) (by omega) n hn8]
    simp at hn
    interval_cases n <;> rfl
  | b0 :: b1 :: b2 :: b3 :: b4 :: b5 :: b6 :: b7 :: rest, hb, n, hn => by
    rw [show packBits (b0 :: b1 :: b2 :: b3 :: b4 :: b5 :: b6 :: b7 :: rest) =
        byteOfBits b0 b1 b2 b3 b4 b5 b6 b7 :: packBits rest from rfl]
    by_cases hn8 : n < 8
    · rw [nthBit_head _ _ n hn8,
        byteOfBits_bit b0 b1 b2 b3 b4 b5 b6 b7 (hb b0 (by simp)) (hb b1 (by simp))
          (hb b2 (by simp)) (hb b3 (by simp)) (hb b4 (by simp)) (hb b5 (by simp))
          (hb b6 (by simp)) (hb b7 (by simp)) n hn8]
      interval_cases n <;> rfl
    · rw [nthBit_cons _ _ n (by omega)]
      have ih := nthBit_packBits rest
        (fun b hbm => hb b (by simp [hbm]))
        (n - 8) (by simp at hn ⊢; omega)
      rw [ih]
      have he : n = (n - 8) + 8 := by omega
      rw [he]
      simp [List.getD_cons_succ]

theorem bitsVal_spec (d : List Nat) : ∀ (n p x : Nat),
    (∀ i, i < n → nthBit d (p + i) = (x >>> (n - 1 - i)) &&& 1) →
    bitsVal d p n = x % 2 ^ n := by
  intro n
  induction n with
  | zero =>
    intro p x _
    simp [bitsVal, Nat.mod_one]
  | succ n ih =>
    intro p x h
    have h0 : nthBit d p = (x >>> n) &&& 1 := by
      have hh := h 0 (by omega)
      simpa using hh
    have hrec : bitsVal d (p + 1) n = x % 2 ^ n := by
      apply ih
      intro i hi
      have hh := h (i + 1) (by omega)
      have e1 : p + (i + 1) = p + 1 + i := by omega
      have e2 : n + 1 - 1 - (i + 1) = n - 1 - i := by omega
      rw [e1, e2] at hh
      exact hh
    show nthBit d p * 2 ^ n + bitsVal d (p + 1) n = x % 2 ^ (n + 1)
    rw [h0, hrec, Nat.shiftRight_eq_div_pow, Nat.and_one_is_mod, pow_succ,
      Nat.mod_mul]
    ring

theorem encodeUe_length (v : Nat) :
    (encodeUe v).length = 2 * Nat.log2 (v + 1) + 1 := by
  unfold encodeUe
  rw [List.length_append, List.length_replicate, natBits_length]
  omega

theorem encodeUe_le_one (v : Nat) : ∀ b ∈ encodeUe v, b ≤ 1 := by
  intro b hb
  unfold encodeUe at hb
  rw [List.mem_append] at hb
  rcases hb with hb | hb
  · simp [List.eq_of_mem_replicate hb]
  · exact natBits_le_one _ _ b hb

theorem read_ue_roundtrip_core (v : Nat) (hv : v ≤ 2 ^ 32 - 2) :
    read_ue (mkReader (packBits (encodeUe v))) =
      .ok (v, atBit (packBits (encodeUe v)) (2 * Nat.log2 (v + 1) + 1)) := by
  have hk := rfl (a := Nat.log2 (v + 1))
  generalize hkdef : Nat.log2 (v + 1) = k at *
  have hpow_le : 2 ^ k ≤ v + 1 := by
    rw [← hkdef]; exact Nat.log2_self_le (by omega)
  have hlt : v + 1 < 2 ^ (k + 1) := by
    rw [← hkdef]; exact Nat.lt_log2_self
  have hk31 : k ≤ 31 := by
    by_contra hcon
    have h1 : (2 : Nat) ^ 32 ≤ 2 ^ k := Nat.pow_le_pow_right (by omega) (by omega)
    have h2 : (2 : Nat) ^ 32 = 4294967296 := by norm_num
    omega
  have hble : (encodeUe v).length = 2 * k + 1 := by
    rw [encodeUe_length, hkdef]
  have hb1 := encodeUe_le_one v
  have hdlen := packBits_length_le (encodeUe v)
  have hnth : ∀ j, j < 2 * k + 1 →
      nthBit (packBits (encodeUe v)) j = (encodeUe v).getD j 0 := by
    intro j hj
    exact nthBit_packBits (encodeUe v) hb1 j (by omega)
  have hzeros : ∀ j, j < k → nthBit (packBits (encodeUe v)) (0 + j) = 0 := by
    intro j hj
    rw [Nat.zero_add, hnth j (by omega)]
    unfold encodeUe
    rw [hkdef, List.getD_append _ _ _ _ (by rw [List.length_replicate]; exact hj)]
    exact replicate_getD k j
  have hone : nthBit (packBits (encodeUe v)) (0 + k) = 1 := by
    rw [Nat.zero_add, hnth k (by omega)]
    unfold encodeUe
    rw [hkdef, List.getD_append_right _ _ _ _ (by rw [List.length_replicate])]
    rw [List.length_replicate, Nat.sub_self, natBits_getD (k + 1) (v + 1) 0 (by omega)]
    rw [Nat.shiftRight_eq_div_pow, Nat.and_one_is_mod]
    have hq : (v + 1) / 2 ^ (k + 1 - 1 - 0) = 1 := by
      apply Nat.div_eq_of_lt_le
      · simpa using hpow_le
      · have e : k + 1 - 1 - 0 = k := by omega
        rw [e, pow_succ] at *
        omega
    rw [hq]
  have hmk : mkReader (packBits (encodeUe v)) = atBit (packBits (encodeUe v)) 0 := rfl
  have hue : ueCount 31 (atBit (packBits (encodeUe v)) 0) =
      .ok (k, atBit (packBits (encodeUe v)) (0 + k + 1)) :=
    ueCount_spec _ k 31 0 hk31 hzeros hone (by omega)
  rw [hmk]
  unfold read_ue
  rw [hue, eBind_ok]
  dsimp only
  by_cases hk0 : k = 0
  · have hv0 : v = 0 := by
      rw [hk0] at hlt
      norm_num at hlt
      omega
    subst hv0
    rw [if_pos hk0, hk0]
  · rw [if_neg hk0]
    have hsuffix : ∀ i, i < k →
        nthBit (packBits (encodeUe v)) (0 + k + 1 + i) =
          ((v + 1) >>> (k - 1 - i)) &&& 1 := by
      intro i hi
      rw [Nat.zero_add, hnth (k + 1 + i) (by omega)]
      unfold encodeUe
      rw [hkdef, List.getD_append_right _ _ _ _ (by rw [List.length_replicate]; omega)]
      rw [List.length_replicate, show k + 1 + i - k = 1 + i from by omega,
        natBits_getD (k + 1) (v + 1) (1 + i) (by omega)]
      congr 2
      omega
    have hbv : bitsVal (packBits (encodeUe v)) (0 + k + 1) k = (v + 1) % 2 ^ k :=
      bitsVal_spec _ k (0 + k + 1) (v + 1) hsuffix
    have hrb : read_bits k (atBit (packBits (encodeUe v)) (0 + k + 1)) =
        .ok ((v + 1) % 2 ^ k, atBit (packBits (encodeUe v)) (0 + k + 1 + k)) := by
      rw [read_bits_atBit _ k (0 + k + 1) (by omega) (by omega), hbv]
    rw [hrb, eBind_ok]
    dsimp only
    have hmod : (v + 1) % 2 ^ k = v + 1 - 2 ^ k := by
      rw [Nat.mod_eq_sub_mod hpow_le]
      apply Nat.mod_eq_of_lt
      rw [pow_succ] at hlt
      omega
    have hval : 1 <<< k - 1 + (v + 1) % 2 ^ k = v := by
      rw [Nat.one_shiftLeft, hmod]
      have hp1 : 1 ≤ 2 ^ k := Nat.one_le_two_pow
      omega
    rw [hval, show 0 + k + 1 + k = 2 * k + 1 from by omega]

theorem read_ue_too_long (d : List Nat) (p : Nat)
    (hz : ∀ j, j < 32 → nthBit d (p + j) = 0) (hlen : p + 31 < 8 * d.length) :
    read_ue (atBit d p) = .error .codeTooLong := by
  unfold read_ue
  rw [ueCount_fail d 31 p (fun j hj => hz j (by omega)) hlen]
  rfl

/-- C6: Exp-Golomb round trip.  For every `v ≤ 2^32 - 2` (leading-zero
count `k = log2 (v+1) ≤ 31`), decoding the standard Exp-Golomb encoding of
`v` (`k` zero bits, a one bit, then the `k` remaining bits of `v + 1`) with
`read_ue` returns exactly `v`, leaving the cursor just past the `2k + 1`
code bits; and a run of 32 leading zero bits (more than the 31 the counter
allows) makes `read_ue` fail with `codeTooLong`. -/
theorem read_ue_round_trip :
    (∀ v : Nat, v ≤ 2 ^ 32 - 2 →
      read_ue (mkReader (packBits (encodeUe v))) =
        .ok (v, atBit (packBits (encodeUe v)) (2 * Nat.log2 (v + 1) + 1))) ∧
    (∀ (d : List Nat) (p : Nat), (∀ j, j < 32 → nthBit d (p + j) = 0) →
      p + 31 < 8 * d.length → read_ue (atBit d p) = .error .codeTooLong) :=
  ⟨read_ue_roundtrip_core, read_ue_too_long⟩

/-- Witness for C6: the value 7 (two leading zeros) round-trips, and the
all-zero 4-byte buffer fails with `codeTooLong`. -/
theorem read_ue_round_trip_witness :
    read_ue (mkReader (packBits (encodeUe 7))) =
      .ok (7, atBit (packBits (encodeUe 7)) (2 * Nat.log2 (7 + 1) + 1)) ∧
    read_ue (atBit [0, 0, 0, 0] 0) = .error .codeTooLong :=
  ⟨read_ue_round_trip.1 7 (by norm_num),
   read_ue_round_trip.2 [0, 0, 0, 0] 0 (by decide) (by norm_num)⟩
